import Mathlib

/-
Verification of the background delegation engine of BMAD-METHOD
(src/modules/orchestrator/lib/delegation.js).

The JavaScript source is shallowly embedded as follows.

Data model: the in-memory Map this.sessions becomes an association list of
Session values keyed by id (Map.set replaces the first entry with the same
key, or appends; Map.get is first-match lookup; Map.delete removes entries
with the key).  The durable per-session directory becomes three components
of ManagerState: store (the status.json documents), results (the
result.json documents), and events (an append-only trace of the externally
visible effects: each status.json write, each process launch and each
termination signal, in program order).  Timestamps are Nat, exit codes are
Int, process ids are Nat, and the randomly generated hex identifiers are
passed in as explicit String parameters.

Operations: spawnSession, handleExit, checkStatus, getResult, killSession,
loadExistingSessions (as performed by init after a restart) and cleanup
are translated line by line from delegation.js.  Filesystem failures that
the source can hit are surfaced as explicit parameters where a claim needs
them (the failRm parameter of cleanup models fs.rm throwing for a given
session directory, which the source catches only outside its loop; the
ioError parameter of trySpawn models the filesystem or spawn layer
throwing before any durable write).  DelegationQueue.enqueue and
DelegationQueue.processQueue are translated from the same file; the drain
loop consumes one admission outcome per spawn attempt from an explicit
outcome trace.
-/

namespace BmadDelegation

/-- Status enum DELEGATION_STATUS, delegation.js lines 15 to 23. -/
inductive DStatus
  | pending
  | spawning
  | running
  | completed
  | failed
  | killed
  | timeout
deriving DecidableEq, Repr

/-- A status is terminal when the lifecycle can no longer progress. -/
def DStatus.isTerminal : DStatus → Bool
  | DStatus.completed => true
  | DStatus.failed => true
  | DStatus.killed => true
  | DStatus.timeout => true
  | _ => false

/-- Caller supplied task descriptor, the argument of spawnSession. -/
structure TaskDescriptor where
  prompt : String
  projectId : Option String
  workingDirectory : Option String
  type : Option String
deriving DecidableEq, Repr

/-- One status.json document; optional fields model absent JSON keys. -/
structure StatusRecord where
  id : String
  status : DStatus
  task : String
  projectId : Option String
  startedAt : Nat
  completedAt : Option Nat
  exitCode : Option Int
  killReason : Option String
  pid : Option Nat
deriving DecidableEq, Repr

/-- One result.json document, written by handleExit (lines 261 to 270). -/
structure ResultRecord where
  success : Bool
  exitCode : Int
  output : String
  completedAt : Nat
deriving DecidableEq, Repr

/-- One entry of the in-memory this.sessions map.  The child field is the
live process handle (none after a restart, delegation.js line 83). -/
structure Session where
  id : String
  status : DStatus
  task : String
  projectId : Option String
  startedAt : Nat
  completedAt : Option Nat
  exitCode : Option Int
  killReason : Option String
  child : Option Nat
  pid : Option Nat
  output : String
deriving DecidableEq, Repr

/-- Externally visible effects of the manager, recorded in program order:
status.json writes, process launches, and termination signals. -/
inductive MEvent
  | wroteStatus (r : StatusRecord)
  | launched (sessionId : String) (pid : Nat)
  | signaled (pid : Int) (signal : String)
deriving DecidableEq, Repr

/-- State of a SessionManager instance together with its durable storage. -/
structure ManagerState where
  maxConcurrentSessions : Nat
  cleanupAfterMs : Nat
  sessions : List Session
  store : List StatusRecord
  results : List (String × ResultRecord)
  events : List MEvent
deriving DecidableEq, Repr

/-- Map.get on this.sessions: first entry whose id matches. -/
def getSession : List Session → String → Option Session
  | [], _ => none
  | s :: rest, sid => if s.id = sid then some s else getSession rest sid

/-- Map.set on this.sessions: replace the entry with the same id, else append. -/
def setSession : List Session → Session → List Session
  | [], s => [s]
  | t :: rest, s => if t.id = s.id then s :: rest else t :: setSession rest s

/-- Overwrite of status.json for one session id inside durable storage. -/
def writeStatusStore : List StatusRecord → StatusRecord → List StatusRecord
  | [], r => [r]
  | t :: rest, r => if t.id = r.id then r :: rest else t :: writeStatusStore rest r

/-- Overwrite of result.json for one session id inside durable storage. -/
def setResult : List (String × ResultRecord) → String → ResultRecord → List (String × ResultRecord)
  | [], sid, r => [(sid, r)]
  | p :: rest, sid, r => if p.1 = sid then (sid, r) :: rest else p :: setResult rest sid r

/-- Lookup of result.json in durable storage. -/
def lookupResult : List (String × ResultRecord) → String → Option ResultRecord
  | [], _ => none
  | p :: rest, sid => if p.1 = sid then some p.2 else lookupResult rest sid

/-- Lookup of status.json in durable storage. -/
def lookupStore : List StatusRecord → String → Option StatusRecord
  | [], _ => none
  | r :: rest, sid => if r.id = sid then some r else lookupStore rest sid

/-- SessionManager.writeStatus (lines 221 to 224): overwrite status.json and
record the write on the event trace. -/
def writeStatusFn (st : ManagerState) (r : StatusRecord) : ManagerState :=
  { st with store := writeStatusStore st.store r,
            events := st.events ++ [MEvent.wroteStatus r] }

/-- Count of sessions whose status is running (lines 102 to 103). -/
def runningCount (l : List Session) : Nat :=
  l.countP (fun s => decide (s.status = DStatus.running))

/-- Error message thrown at line 106 when the concurrency cap is reached. -/
def capacityMsg (cap : Nat) : String :=
  "Maximum concurrent sessions (" ++ toString cap ++ ") reached"

/-- Substring tested by DelegationQueue at lines 458 and 483. -/
def capacityMarker : String := "Maximum concurrent sessions"

/-- Initial status.json document of a fresh session (lines 127 to 135). -/
def spawnRecord (sid : String) (task : TaskDescriptor) (now : Nat) : StatusRecord :=
  { id := sid, status := DStatus.spawning, task := task.prompt,
    projectId := task.projectId, startedAt := now, completedAt := none,
    exitCode := none, killReason := none, pid := none }

/-- In-memory session stored right after the child process starts
(lines 153 to 161). -/
def spawnedSession (sid : String) (task : TaskDescriptor) (now : Nat) (pid : Nat) : Session :=
  { id := sid, status := DStatus.running, task := task.prompt,
    projectId := task.projectId, startedAt := now, completedAt := none,
    exitCode := none, killReason := none, child := some pid, pid := some pid,
    output := "" }

/-- State produced by a successful spawnSession call: write the spawning
record (line 136), launch the child (line 142), store the running session
(line 161), write the running record (line 164). -/
def spawnBody (st : ManagerState) (sid : String) (task : TaskDescriptor)
    (now : Nat) (pid : Nat) : ManagerState :=
  let st1 := writeStatusFn st (spawnRecord sid task now)
  let st2 := { st1 with events := st1.events ++ [MEvent.launched sid pid] }
  let st3 := { st2 with sessions := setSession st2.sessions (spawnedSession sid task now pid) }
  writeStatusFn st3 { spawnRecord sid task now with status := DStatus.running, pid := some pid }

/-- SessionManager.spawnSession (lines 98 to 191) executed without
interleaving: the admission check of lines 102 to 107 followed by the
whole body.  The sessionId parameter stands for the generated random hex
id, now for the current time and pid for the operating system pid. -/
def spawnSession (st : ManagerState) (sid : String) (task : TaskDescriptor)
    (now : Nat) (pid : Nat) : Except String (ManagerState × String) :=
  if runningCount st.sessions ≥ st.maxConcurrentSessions then
    Except.error (capacityMsg st.maxConcurrentSessions)
  else
    Except.ok (spawnBody st sid task now pid, sid)

/-- SessionManager.handleExit (lines 237 to 271). -/
def handleExit (st : ManagerState) (sid : String) (exitCode : Int) (now : Nat) : ManagerState :=
  match getSession st.sessions sid with
  | none => st
  | some session =>
    let finalStatus := if exitCode = 0 then DStatus.completed else DStatus.failed
    let session2 : Session :=
      { session with status := finalStatus, completedAt := some now,
                     exitCode := some exitCode }
    let finalRecord : StatusRecord :=
      { id := sid, status := finalStatus, task := session.task,
        projectId := session.projectId, startedAt := session.startedAt,
        completedAt := some now, exitCode := some exitCode, killReason := none,
        pid := session.pid }
    let result : ResultRecord :=
      { success := decide (exitCode = 0), exitCode := exitCode,
        output := session.output, completedAt := now }
    let st1 := { st with sessions := setSession st.sessions session2 }
    let st2 := writeStatusFn st1 finalRecord
    { st2 with results := setResult st2.results sid result }

/-- SessionManager.checkStatus (lines 276 to 298): in-memory record first,
durable record as fallback. -/
def checkStatus (st : ManagerState) (sid : String) : Option StatusRecord :=
  match getSession st.sessions sid with
  | some session =>
    some { id := sid, status := session.status, task := session.task,
           projectId := none, startedAt := session.startedAt,
           completedAt := session.completedAt, exitCode := none,
           killReason := none, pid := session.pid }
  | none => lookupStore st.store sid

/-- SessionManager.getResult (lines 303 to 311). -/
def getResult (st : ManagerState) (sid : String) : Option ResultRecord :=
  lookupResult st.results sid

/-- Status record written by killSession (lines 343 to 350); the JSON
object has no projectId, exitCode or pid key. -/
def killRecord (sid : String) (session : Session) (newStatus : DStatus)
    (reason : String) (now : Nat) : StatusRecord :=
  { id := sid, status := newStatus, task := session.task, projectId := none,
    startedAt := session.startedAt, completedAt := some now, exitCode := none,
    killReason := some reason, pid := none }

/-- SessionManager.killSession (lines 328 to 356).  The guard at line 332
requires a live child handle and running status; the signal goes to the
process group, hence the negated pid. -/
def killSession (st : ManagerState) (sid : String) (reason : String) (now : Nat) :
    ManagerState × Bool :=
  match getSession st.sessions sid with
  | none => (st, false)
  | some session =>
    if session.child.isSome = true ∧ session.status = DStatus.running then
      let pid := session.child.getD 0
      let newStatus := if reason = "timeout" then DStatus.timeout else DStatus.killed
      let session2 : Session := { session with status := newStatus, completedAt := some now }
      let st0 := { st with events := st.events ++ [MEvent.signaled (-(pid : Int)) "SIGTERM"] }
      let st1 := { st0 with sessions := setSession st0.sessions session2 }
      (writeStatusFn st1 (killRecord sid session newStatus reason now), true)
    else (st, false)

/-- Session reconstructed from a durable record at startup: the spread of
the parsed status object with child set to null (lines 80 to 84). -/
def sessionOfRecord (r : StatusRecord) : Session :=
  { id := r.id, status := r.status, task := r.task, projectId := r.projectId,
    startedAt := r.startedAt, completedAt := r.completedAt, exitCode := r.exitCode,
    killReason := r.killReason, child := none, pid := r.pid, output := "" }

/-- SessionManager.loadExistingSessions (lines 63 to 93): every durable
record whose status is neither completed nor failed is loaded. -/
def loadedSessions : List StatusRecord → List Session
  | [] => []
  | r :: rest =>
    if r.status = DStatus.completed ∨ r.status = DStatus.failed then
      loadedSessions rest
    else sessionOfRecord r :: loadedSessions rest

/-- Manager state right after init on a fresh controller instance over an
existing durable store (lines 48 to 58). -/
def recoverManager (cap cleanupWin : Nat) (store : List StatusRecord)
    (results : List (String × ResultRecord)) : ManagerState :=
  { maxConcurrentSessions := cap, cleanupAfterMs := cleanupWin,
    sessions := loadedSessions store, store := store, results := results,
    events := [] }

/-- Removal of one session directory by fs.rm plus Map.delete
(lines 428 to 429). -/
def removeSession (st : ManagerState) (sid : String) : ManagerState :=
  { st with store := st.store.filter (fun r => decide (r.id ≠ sid)),
            sessions := st.sessions.filter (fun s => decide (s.id ≠ sid)),
            results := st.results.filter (fun p => decide (p.1 ≠ sid)) }

/-- Deletion test of cleanup for one directory name (lines 418 to 427):
readable status, status completed or failed, completion time older than
the cutoff.  A missing completedAt never satisfies the age test because
the NaN comparison of the source is false. -/
def deletableRec (st : ManagerState) (cutoff : Int) (sid : String) : Bool :=
  match checkStatus st sid with
  | none => false
  | some status =>
    if status.status = DStatus.completed ∨ status.status = DStatus.failed then
      match status.completedAt with
      | none => false
      | some c => decide ((c : Int) < cutoff)
    else false

/-- Loop of SessionManager.cleanup over the directory entries (one per
durable record).  A thrown fs.rm, modeled by membership in failRm, is
caught by the single try block around the whole loop (lines 412 to 434),
so it ends the run with the state reached so far. -/
def cleanupLoop (cutoff : Int) (failRm : List String) :
    ManagerState → List StatusRecord → ManagerState
  | st, [] => st
  | st, r :: rest =>
    if deletableRec st cutoff r.id then
      if r.id ∈ failRm then st
      else cleanupLoop cutoff failRm (removeSession st r.id) rest
    else cleanupLoop cutoff failRm st rest

/-- SessionManager.cleanup (lines 409 to 435) at current time nowMs. -/
def cleanup (st : ManagerState) (nowMs : Nat) (failRm : List String) : ManagerState :=
  cleanupLoop ((nowMs : Int) - (st.cleanupAfterMs : Int)) failRm st st.store

/-- Sequence of statuses written durably for one session id, in order. -/
def statusWritesFor (sid : String) : List MEvent → List DStatus
  | [] => []
  | MEvent.wroteStatus r :: rest =>
    if r.id = sid then r.status :: statusWritesFor sid rest else statusWritesFor sid rest
  | _ :: rest => statusWritesFor sid rest

/-- Durable status history of one session in a manager run. -/
def historyOf (st : ManagerState) (sid : String) : List DStatus :=
  statusWritesFor sid st.events

/-- Helper for the includes check of String.prototype.includes: does the
pattern occur at some position of the character list. -/
def strIncludesAux (pat : List Char) : List Char → Bool
  | [] => pat.isPrefixOf ([] : List Char)
  | c :: rest => pat.isPrefixOf (c :: rest) || strIncludesAux pat rest

/-- JavaScript String.prototype.includes as used at lines 458 and 483. -/
def strIncludes (s pat : String) : Bool := strIncludesAux pat.data s.data

/-- One spawn attempt as seen by the queue: either the body runs, or the
admission check throws, or the filesystem and process layer throws before
any durable write (the ioError parameter carries that external message). -/
def trySpawn (st : ManagerState) (ioError : Option String) (sid : String)
    (task : TaskDescriptor) (now : Nat) (pid : Nat) :
    Except String (ManagerState × String) :=
  if runningCount st.sessions ≥ st.maxConcurrentSessions then
    Except.error (capacityMsg st.maxConcurrentSessions)
  else
    match ioError with
    | some msg => Except.error msg
    | none => Except.ok (spawnBody st sid task now pid, sid)

/-- Entry of the delegation queue (lines 460 to 461). -/
structure QueueItem where
  id : String
  task : TaskDescriptor
  addedAt : Nat
deriving DecidableEq, Repr

/-- State of a DelegationQueue instance. -/
structure QueueState where
  queue : List QueueItem
  processing : Bool
deriving DecidableEq, Repr

/-- Value returned by DelegationQueue.enqueue. -/
inductive EnqueueResult
  | notQueued (sessionId : String)
  | queuedRes (queueId : String) (position : Nat)
deriving DecidableEq, Repr

/-- DelegationQueue.enqueue (lines 452 to 467): immediate spawn attempt;
on an error whose message contains the capacity marker, append an entry
and report its one-based position (the queue length after the push); any
other error is rethrown. -/
def enqueue (st : ManagerState) (q : QueueState) (ioError : Option String)
    (task : TaskDescriptor) (queueId : String) (sid : String) (now : Nat) (pid : Nat) :
    Except String (ManagerState × QueueState × EnqueueResult) :=
  match trySpawn st ioError sid task now pid with
  | Except.ok (st2, sessionId) =>
    Except.ok (st2, q, EnqueueResult.notQueued sessionId)
  | Except.error msg =>
    if strIncludes msg capacityMarker then
      let q2 : QueueState :=
        { q with queue := q.queue ++ [{ id := queueId, task := task, addedAt := now }] }
      Except.ok (st, q2, EnqueueResult.queuedRes queueId q2.queue.length)
    else Except.error msg

/-- Outcome of one spawn attempt made by the drain loop, classified as the
loop itself classifies it at lines 482 to 489. -/
inductive AttemptResult
  | success
  | capacity
  | failure
deriving DecidableEq, Repr

/-- DelegationQueue.processQueue (lines 472 to 494), driven by the trace
of admission outcomes, one per spawn attempt.  The first component of the
value is the list of entries admitted, in admission order; the second is
the queue left when the outcome trace is exhausted.  A capacity outcome
backs off and retries the same head; a success shifts the head after
admitting it; any other failure shifts the head without admitting it. -/
def processQueue : List QueueItem → List AttemptResult → List QueueItem × List QueueItem
  | queue, [] => ([], queue)
  | [], _ :: _ => ([], [])
  | item :: rest, AttemptResult.success :: results =>
    ((item :: (processQueue rest results).1), (processQueue rest results).2)
  | item :: rest, AttemptResult.capacity :: results =>
    processQueue (item :: rest) results
  | _ :: rest, AttemptResult.failure :: results =>
    processQueue rest results

/-- Phase of one in-flight spawnSession call, split at its await points:
the admission check of lines 102 to 107 is one atomic step, and the
transition into the sessions map at line 161 is another; between the two
the call suspends on fs.mkdir, fs.writeFile and writeStatus. -/
inductive CallPhase
  | notStarted
  | admitted
  | committed
  | rejected
deriving DecidableEq, Repr

/-- One in-flight spawnSession call of the interleaving model. -/
structure PendingSpawn where
  sessionId : String
  phase : CallPhase
deriving DecidableEq, Repr

/-- Minimal running session inserted by the commit step of the
interleaving model. -/
def mkRunningSession (sid : String) (pid : Nat) : Session :=
  { id := sid, status := DStatus.running, task := "", projectId := none,
    startedAt := 0, completedAt := none, exitCode := none, killReason := none,
    child := some pid, pid := some pid, output := "" }

/-- One atomic step of one in-flight spawnSession call. -/
def stepSpawnCall (cap : Nat) (sessions : List Session) (c : PendingSpawn) :
    List Session × PendingSpawn :=
  match c.phase with
  | CallPhase.notStarted =>
    if runningCount sessions ≥ cap then (sessions, { c with phase := CallPhase.rejected })
    else (sessions, { c with phase := CallPhase.admitted })
  | CallPhase.admitted =>
    (setSession sessions (mkRunningSession c.sessionId 1),
     { c with phase := CallPhase.committed })
  | _ => (sessions, c)

/-- Run of several concurrent spawnSession calls under a schedule: each
schedule entry names the call that performs its next atomic step. -/
def runSchedule (cap : Nat) :
    List Session → List PendingSpawn → List Nat → List Session × List PendingSpawn
  | sessions, calls, [] => (sessions, calls)
  | sessions, calls, i :: rest =>
    match calls[i]? with
    | none => runSchedule cap sessions calls rest
    | some c =>
      let p := stepSpawnCall cap sessions c
      runSchedule cap p.1 (calls.set i p.2) rest

/-- One sequential spawnSession request with its generated id, time and
operating system pid. -/
structure SpawnReq where
  sessionId : String
  task : TaskDescriptor
  now : Nat
  pid : Nat
deriving DecidableEq, Repr

/-- Sequential execution of a list of spawnSession calls, each running to
completion before the next starts; a capacity error leaves the state
unchanged. -/
def runSpawnsSeq : ManagerState → List SpawnReq → ManagerState
  | st, [] => st
  | st, req :: rest =>
    match spawnSession st req.sessionId req.task req.now req.pid with
    | Except.ok p => runSpawnsSeq p.1 rest
    | Except.error _ => runSpawnsSeq st rest

/-- Observable operations of one SessionManager instance: a spawnSession
call, a process exit event, a killSession call (the timeout timer of line
183 issues one with reason timeout), and a cleanup run. -/
inductive MOp
  | spawnOp (sessionId : String) (task : TaskDescriptor) (now : Nat) (pid : Nat)
  | exitOp (sessionId : String) (code : Int) (now : Nat)
  | killOp (sessionId : String) (reason : String) (now : Nat)
  | cleanupOp (now : Nat) (failRm : List String)
deriving Repr

/-- Effect of one operation on the manager state. -/
def applyOp (st : ManagerState) : MOp → ManagerState
  | MOp.spawnOp sid task now pid =>
    match spawnSession st sid task now pid with
    | Except.ok p => p.1
    | Except.error _ => st
  | MOp.exitOp sid code now => handleExit st sid code now
  | MOp.killOp sid reason now => (killSession st sid reason now).1
  | MOp.cleanupOp now failRm => cleanup st now failRm

/-- Run of a list of operations from a starting state. -/
def runOps : ManagerState → List MOp → ManagerState
  | st, [] => st
  | st, op :: rest => runOps (applyOp st op) rest

/-- Number of spawnSession calls of an operation list that target one id. -/
def spawnOpsFor (sid : String) (ops : List MOp) : Nat :=
  ops.countP (fun op => match op with
    | MOp.spawnOp s _ _ _ => decide (s = sid)
    | _ => false)

/-- Number of process exit events of an operation list for one id. -/
def exitOpsFor (sid : String) (ops : List MOp) : Nat :=
  ops.countP (fun op => match op with
    | MOp.exitOp s _ _ => decide (s = sid)
    | _ => false)

/-- Manager with empty state, as constructed before any session exists. -/
def freshManager (cap cleanupWin : Nat) : ManagerState :=
  { maxConcurrentSessions := cap, cleanupAfterMs := cleanupWin,
    sessions := [], store := [], results := [], events := [] }

/-- A status counts as a kill outcome. -/
def killedLike (k : DStatus) : Prop := k = DStatus.killed ∨ k = DStatus.timeout

/-- A status counts as a natural exit outcome. -/
def exitLike (u : DStatus) : Prop := u = DStatus.completed ∨ u = DStatus.failed

/-- Durable histories reachable for one session: nothing, the spawning and
running records, one terminal record, or a kill record overwritten by the
exit record of the dying process. -/
def ValidHist (h : List DStatus) : Prop :=
  h = [] ∨
  h = [DStatus.spawning, DStatus.running] ∨
  (∃ t, t.isTerminal = true ∧ h = [DStatus.spawning, DStatus.running, t]) ∨
  (∃ k u, killedLike k ∧ exitLike u ∧
    h = [DStatus.spawning, DStatus.running, k, u])

/-- The in-memory entry of a session is gone or carries a given status. -/
def memNoneOrStatus (st : ManagerState) (sid : String) (u : DStatus) : Prop :=
  getSession st.sessions sid = none ∨
  ∃ s, getSession st.sessions sid = some s ∧ s.status = u

/-- Phase of one session id: never spawned. -/
def InS0 (st : ManagerState) (sid : String) : Prop :=
  historyOf st sid = [] ∧ getSession st.sessions sid = none

/-- Phase of one session id: spawned and live, with a process handle. -/
def InS2 (st : ManagerState) (sid : String) : Prop :=
  historyOf st sid = [DStatus.spawning, DStatus.running] ∧
  ∃ s, getSession st.sessions sid = some s ∧ s.status = DStatus.running ∧
    s.child.isSome = true

/-- Phase of one session id: ended by a natural process exit. -/
def InS3 (st : ManagerState) (sid : String) : Prop :=
  ∃ u, exitLike u ∧
    historyOf st sid = [DStatus.spawning, DStatus.running, u] ∧
    memNoneOrStatus st sid u

/-- Phase of one session id: ended by a kill, exit event still pending. -/
def InS4 (st : ManagerState) (sid : String) : Prop :=
  ∃ k, killedLike k ∧
    historyOf st sid = [DStatus.spawning, DStatus.running, k] ∧
    ∃ s, getSession st.sessions sid = some s ∧ s.status = k

/-- Phase of one session id: killed, then overwritten by the exit event
of the signaled process. -/
def InS5 (st : ManagerState) (sid : String) : Prop :=
  ∃ k u, killedLike k ∧ exitLike u ∧
    historyOf st sid = [DStatus.spawning, DStatus.running, k, u] ∧
    memNoneOrStatus st sid u

/-- Every phase one session id can be in. -/
def PhaseOK (st : ManagerState) (sid : String) : Prop :=
  InS0 st sid ∨ InS2 st sid ∨ InS3 st sid ∨ InS4 st sid ∨ InS5 st sid

/-- Session id targeted by an operation, none for cleanup. -/
def opSid : MOp → Option String
  | MOp.spawnOp s _ _ _ => some s
  | MOp.exitOp s _ _ => some s
  | MOp.killOp s _ _ => some s
  | MOp.cleanupOp _ _ => none

/-- Count of orphaned running sessions: running status, no live handle. -/
def orphanRunningCount (l : List Session) : Nat :=
  l.countP (fun s => decide (s.status = DStatus.running) && s.child.isNone)

/-- Count of live running sessions: running status with a live handle. -/
def liveRunningCount (l : List Session) : Nat :=
  l.countP (fun s => decide (s.status = DStatus.running) && s.child.isSome)

/-- Count of durable records whose recorded status is running. -/
def storeRunningCount (store : List StatusRecord) : Nat :=
  store.countP (fun r => decide (r.status = DStatus.running))

/-- Concrete task used by the concrete instances below. -/
def task0 : TaskDescriptor :=
  { prompt := "p", projectId := none, workingDirectory := none, type := none }

/-- Concrete session id used by the concrete instances below. -/
def sidA : String := "a"

/-- Kill reason used by the user facing kill path. -/
def reasonUser : String := "user_request"

/-- Run that spawns one session, kills it, and then receives the exit
event of the signaled process. -/
def stKillThenExit : ManagerState :=
  runOps (freshManager 3 0)
    [MOp.spawnOp sidA task0 0 7, MOp.killOp sidA reasonUser 5, MOp.exitOp sidA 143 6]

/-- Intermediate state of the same run, right after the kill. -/
def stKilled : ManagerState :=
  runOps (freshManager 3 0) [MOp.spawnOp sidA task0 0 7, MOp.killOp sidA reasonUser 5]

/-- Durable record of a running session, as left behind by a controller
that crashed while the worker was alive. -/
def runRecA : StatusRecord :=
  { id := sidA, status := DStatus.running, task := "p", projectId := none,
    startedAt := 0, completedAt := none, exitCode := none, killReason := none,
    pid := some 7 }

/-- Fresh controller recovered over a store holding one running record. -/
def stOrphan : ManagerState := recoverManager 3 0 [runRecA] []

/-- Durable record of a killed session. -/
def killedRecK1 : StatusRecord :=
  { id := "k1", status := DStatus.killed, task := "p", projectId := none,
    startedAt := 0, completedAt := some 0, exitCode := none,
    killReason := some reasonUser, pid := none }

/-- Durable record of a completed session with a given id. -/
def compRec (i : String) : StatusRecord :=
  { id := i, status := DStatus.completed, task := "p", projectId := none,
    startedAt := 0, completedAt := some 0, exitCode := some 0,
    killReason := none, pid := some 7 }

/-- Id of the first completed record of the cleanup scenario. -/
def idC2 : String := "c2"

/-- Id of the second completed record of the cleanup scenario. -/
def idC3 : String := "c3"

/-- Store holding one killed record and two completed records, with zero
retention window. -/
def stC6 : ManagerState :=
  { maxConcurrentSessions := 3, cleanupAfterMs := 0, sessions := [],
    store := [killedRecK1, compRec idC2, compRec idC3], results := [],
    events := [] }

/-- Run that spawns a single session and stops. -/
def stSpawned : ManagerState :=
  runOps (freshManager 3 0) [MOp.spawnOp sidA task0 0 7]

/-- Status record written by handleExit, named for reuse in statements. -/
def exitRecord (sid : String) (session : Session) (exitCode : Int) (now : Nat) :
    StatusRecord :=
  { id := sid, status := if exitCode = 0 then DStatus.completed else DStatus.failed,
    task := session.task, projectId := session.projectId,
    startedAt := session.startedAt, completedAt := some now,
    exitCode := some exitCode, killReason := none, pid := session.pid }

/-- Result record written by handleExit, named for reuse in statements. -/
def exitResult (session : Session) (exitCode : Int) (now : Nat) : ResultRecord :=
  { success := decide (exitCode = 0), exitCode := exitCode,
    output := session.output, completedAt := now }

/-- Session value stored by handleExit, named for reuse in statements. -/
def exitSession (session : Session) (exitCode : Int) (now : Nat) : Session :=
  { session with status := if exitCode = 0 then DStatus.completed else DStatus.failed,
                 completedAt := some now, exitCode := some exitCode }

/-- Queue id used by concrete witnesses. -/
def qidQ : String := "q"

/-- Session id used by concrete witnesses. -/
def sidS : String := "s"

/-- External error message used by concrete witnesses. -/
def msgBoom : String := "boom"

/-- Empty delegation queue. -/
def emptyQueue : QueueState := { queue := [], processing := false }

/-- Controller with cap 1 recovered over a store holding one running
record: the single slot is held by the orphan. -/
def stFullCap1 : ManagerState := recoverManager 1 0 [runRecA] []

/-- A prefix of a list is a prefix of any extension of the list. -/
theorem isPrefixOf_append_right (p : List Char) :
    ∀ (q t : List Char), p.isPrefixOf q = true → p.isPrefixOf (q ++ t) = true := by
  induction p with
  | nil => intro q t _; simp only [List.isPrefixOf]
  | cons a as ih =>
    intro q t h
    cases q with
    | nil =>
      simp only [List.isPrefixOf] at h
      exact absurd h (by decide)
    | cons b bs =>
      simp only [List.isPrefixOf, Bool.and_eq_true, beq_iff_eq] at h ⊢
      exact ⟨h.1, ih bs t h.2⟩

/-- A pattern that is a prefix of a list occurs in the list. -/
theorem strIncludesAux_of_isPrefixOf (pat : List Char) (l : List Char)
    (h : pat.isPrefixOf l = true) : strIncludesAux pat l = true := by
  cases l with
  | nil => simpa [strIncludesAux] using h
  | cons c rest => simp [strIncludesAux, h]

/-- The capacity error message always contains the marker substring that
DelegationQueue tests with String.prototype.includes. -/
theorem marker_in_capacityMsg (cap : Nat) :
    strIncludes (capacityMsg cap) capacityMarker = true := by
  have h0 : capacityMarker.data.isPrefixOf ("Maximum concurrent sessions (").data = true := by
    decide
  have h1 : (capacityMsg cap).data =
      ("Maximum concurrent sessions (").data ++
        ((toString cap).data ++ (") reached").data) := by
    show ((("Maximum concurrent sessions (" ++ toString cap) ++ ") reached")).data = _
    rw [show ∀ (a b : String), (a ++ b).data = a.data ++ b.data from fun _ _ => rfl]
    rw [show ∀ (a b : String), (a ++ b).data = a.data ++ b.data from fun _ _ => rfl]
    rw [List.append_assoc]
  unfold strIncludes
  rw [h1]
  exact strIncludesAux_of_isPrefixOf _ _ (isPrefixOf_append_right _ _ _ h0)

/-- A session found under a key carries that key as its id. -/
theorem getSession_id (l : List Session) (sid : String) (s : Session)
    (h : getSession l sid = some s) : s.id = sid := by
  induction l with
  | nil => simp [getSession] at h
  | cons t rest ih =>
    simp only [getSession] at h
    split at h
    · cases h
      assumption
    · exact ih h

/-- Map.set followed by Map.get on the stored key yields the new value. -/
theorem getSession_set_self (l : List Session) (s : Session) :
    getSession (setSession l s) s.id = some s := by
  induction l with
  | nil => simp [setSession, getSession]
  | cons t rest ih =>
    simp only [setSession]
    split
    · simp [getSession]
    · next hne =>
      simp only [getSession]
      rw [if_neg hne]
      exact ih

/-- Map.set leaves lookups under other keys unchanged. -/
theorem getSession_set_ne (l : List Session) (s : Session) (sid : String)
    (h : s.id ≠ sid) : getSession (setSession l s) sid = getSession l sid := by
  induction l with
  | nil => simp [setSession, getSession, h]
  | cons t rest ih =>
    simp only [setSession]
    split
    · next he =>
      simp only [getSession]
      rw [if_neg (he ▸ h), if_neg (by rw [he]; exact h)]
    · simp only [getSession]
      split
      · rfl
      · exact ih

/-- Map.set under an absent key appends the new entry at the end. -/
theorem setSession_append (l : List Session) (s : Session)
    (h : getSession l s.id = none) : setSession l s = l ++ [s] := by
  induction l with
  | nil => rfl
  | cons t rest ih =>
    simp only [getSession] at h
    split at h
    · cases h
    · next hne =>
      simp only [setSession]
      rw [if_neg hne]
      rw [ih h]
      rfl

/-- Count of running sessions grows by at most one under Map.set. -/
theorem runningCount_set_le (l : List Session) (s : Session) :
    runningCount (setSession l s) ≤ runningCount l + 1 := by
  induction l with
  | nil =>
    simp only [setSession, runningCount, List.countP_cons, List.countP_nil]
    split <;> omega
  | cons t rest ih =>
    simp only [setSession]
    split
    · simp only [runningCount, List.countP_cons] at *
      split <;> split <;> omega
    · simp only [runningCount, List.countP_cons] at *
      omega

/-- Status writes distribute over concatenation of event traces. -/
theorem statusWritesFor_append (sid : String) (a b : List MEvent) :
    statusWritesFor sid (a ++ b) =
      statusWritesFor sid a ++ statusWritesFor sid b := by
  induction a with
  | nil => rfl
  | cons e rest ih =>
    cases e with
    | wroteStatus r =>
      by_cases hr : r.id = sid
      · simp [statusWritesFor, hr, ih]
      · simp [statusWritesFor, hr, ih]
    | launched s p => simp [statusWritesFor, ih]
    | signaled p s => simp [statusWritesFor, ih]

/-- Sessions map produced by a successful spawn body. -/
theorem spawnBody_sessions (st : ManagerState) (sid : String) (task : TaskDescriptor)
    (now : Nat) (pid : Nat) :
    (spawnBody st sid task now pid).sessions =
      setSession st.sessions (spawnedSession sid task now pid) := rfl

/-- Event trace produced by a successful spawn body: the spawning write,
the launch, then the running write. -/
theorem spawnBody_events (st : ManagerState) (sid : String) (task : TaskDescriptor)
    (now : Nat) (pid : Nat) :
    (spawnBody st sid task now pid).events =
      st.events ++
        [MEvent.wroteStatus (spawnRecord sid task now), MEvent.launched sid pid,
         MEvent.wroteStatus
           ({ spawnRecord sid task now with status := DStatus.running, pid := some pid })] := by
  simp [spawnBody, writeStatusFn]

/-- The spawn body does not change the configured cap. -/
theorem spawnBody_max (st : ManagerState) (sid : String) (task : TaskDescriptor)
    (now : Nat) (pid : Nat) :
    (spawnBody st sid task now pid).maxConcurrentSessions =
      st.maxConcurrentSessions := rfl

/-- Behaviour of handleExit on an untracked session id. -/
theorem handleExit_not_found (st : ManagerState) (sid : String) (c : Int) (n : Nat)
    (h : getSession st.sessions sid = none) : handleExit st sid c n = st := by
  unfold handleExit
  rw [h]

/-- Behaviour of handleExit on a tracked session, whatever its status. -/
theorem handleExit_found (st : ManagerState) (sid : String) (c : Int) (n : Nat)
    (s : Session) (h : getSession st.sessions sid = some s) :
    handleExit st sid c n =
      { st with
          sessions := setSession st.sessions (exitSession s c n),
          store := writeStatusStore st.store (exitRecord sid s c n),
          events := st.events ++ [MEvent.wroteStatus (exitRecord sid s c n)],
          results := setResult st.results sid (exitResult s c n) } := by
  unfold handleExit
  rw [h]
  rfl

/-- Behaviour of killSession on an untracked session id. -/
theorem killSession_not_found (st : ManagerState) (sid : String) (reason : String)
    (n : Nat) (h : getSession st.sessions sid = none) :
    killSession st sid reason n = (st, false) := by
  unfold killSession
  rw [h]

/-- Behaviour of killSession when the guard of line 332 fails: no live
child handle, or a status other than running. -/
theorem killSession_guard_false (st : ManagerState) (sid : String) (reason : String)
    (n : Nat) (s : Session) (h : getSession st.sessions sid = some s)
    (hg : ¬(s.child.isSome = true ∧ s.status = DStatus.running)) :
    killSession st sid reason n = (st, false) := by
  unfold killSession
  rw [h]
  exact if_neg hg

/-- Behaviour of killSession on a running session with a live handle. -/
theorem killSession_success (st : ManagerState) (sid : String) (reason : String)
    (n : Nat) (s : Session) (p : Nat) (h : getSession st.sessions sid = some s)
    (hc : s.child = some p) (hr : s.status = DStatus.running) :
    killSession st sid reason n =
      ({ st with
          sessions := setSession st.sessions
            ({ s with
                status := if reason = "timeout" then DStatus.timeout else DStatus.killed,
                completedAt := some n }),
          store := writeStatusStore st.store
            (killRecord sid s
              (if reason = "timeout" then DStatus.timeout else DStatus.killed) reason n),
          events := st.events ++
            [MEvent.signaled (-(p : Int)) "SIGTERM",
             MEvent.wroteStatus
               (killRecord sid s
                 (if reason = "timeout" then DStatus.timeout else DStatus.killed)
                 reason n)] }, true) := by
  unfold killSession
  rw [h]
  dsimp only
  have hcond : s.child.isSome = true ∧ s.status = DStatus.running := by
    constructor
    · simp [hc]
    · exact hr
  rw [if_pos hcond]
  simp only [writeStatusFn, hc, Option.getD_some]
  simp [List.append_assoc]

/-- C1, counterexample.  With cap 1 and two concurrent spawnSession calls
interleaved at their await points (both admission checks run before
either call stores its running session), both calls commit: the schedule
check of call 0, check of call 1, commit of call 0, commit of call 1
yields two simultaneously running sessions, exceeding the cap of 1, and
neither call failed with the capacity error. -/
theorem C1_counterexample :
    runningCount (runSchedule 1 []
      [{ sessionId := sidA, phase := CallPhase.notStarted },
       { sessionId := "b", phase := CallPhase.notStarted }] [0, 1, 0, 1]).1 = 2 ∧
    (runSchedule 1 []
      [{ sessionId := sidA, phase := CallPhase.notStarted },
       { sessionId := "b", phase := CallPhase.notStarted }] [0, 1, 0, 1]).2 =
      [{ sessionId := sidA, phase := CallPhase.committed },
       { sessionId := "b", phase := CallPhase.committed }] ∧
    1 < 2 := by decide

/-- C2, counterexample.  The first durable record of a fresh session has
status spawning, not pending, and pending never appears in any durable
history; moreover a kill followed by the exit of the signaled process
records a second terminal status, so the history spawning, running,
killed, failed is reachable, which is none of the claimed paths. -/
theorem C2_counterexample :
    historyOf stSpawned sidA = [DStatus.spawning, DStatus.running] ∧
    (historyOf stSpawned sidA).head? = some DStatus.spawning ∧
    historyOf stKillThenExit sidA =
      [DStatus.spawning, DStatus.running, DStatus.killed, DStatus.failed] ∧
    DStatus.pending ∉ historyOf stKillThenExit sidA := by decide

/-- C3, counterexample.  After killSession records the terminal status
killed with completion time 5, the exit callback of the dying process
overwrites the status with failed and the completion time with 6: the
first observed terminal outcome does not win, and completedAt is mutated
after the transition into a terminal state. -/
theorem C3_counterexample :
    (getSession stKilled.sessions sidA).map Session.status = some DStatus.killed ∧
    (getSession stKilled.sessions sidA).map Session.completedAt = some (some 5) ∧
    stKillThenExit = handleExit stKilled sidA 143 6 ∧
    (getSession stKillThenExit.sessions sidA).map Session.status = some DStatus.failed ∧
    (getSession stKillThenExit.sessions sidA).map Session.completedAt =
      some (some 6) := by decide

/-- C4, counterexample.  A session recovered after a restart has status
running but no live process handle; killSession on it returns false and
changes nothing, although the claim requires a running session to be
killed with result true. -/
theorem C4_counterexample :
    (getSession stOrphan.sessions sidA).map Session.status = some DStatus.running ∧
    killSession stOrphan sidA reasonUser 9 = (stOrphan, false) := by decide

/-- C6, counterexample.  With retention window zero, cleanup leaves the
killed record in place although it is terminal and old, and a deletion
failure on one completed record aborts the run, leaving a second old
completed record undeleted as well. -/
theorem C6_counterexample :
    (cleanup stC6 1000 []).store = [killedRecK1] ∧
    (cleanup stC6 1000 [idC2]).store = stC6.store ∧
    killedRecK1.status.isTerminal = true := by decide

/-- C7, counterexample.  A durable record with terminal status killed is
reloaded into the in-memory index by loadExistingSessions, contradicting
the part of the claim that no terminal record is reloaded. -/
theorem C7_counterexample :
    loadedSessions [killedRecK1] = [sessionOfRecord killedRecK1] ∧
    (sessionOfRecord killedRecK1).status = DStatus.killed ∧
    DStatus.killed.isTerminal = true := by decide

/-- Result lookup after a result write under the same key. -/
theorem lookupResult_set_self (l : List (String × ResultRecord)) (sid : String)
    (r : ResultRecord) : lookupResult (setResult l sid r) sid = some r := by
  induction l with
  | nil => simp [setResult, lookupResult]
  | cons p rest ih =>
    simp only [setResult]
    split
    · simp [lookupResult]
    · next hne =>
      simp only [lookupResult]
      rw [if_neg hne]
      exact ih

/-- Sequential spawnSession calls preserve the cap bound on the count of
running sessions, and leave the configured cap unchanged. -/
theorem runSpawnsSeq_cap (reqs : List SpawnReq) :
    ∀ st : ManagerState,
      runningCount st.sessions ≤ st.maxConcurrentSessions →
      runningCount (runSpawnsSeq st reqs).sessions ≤
          (runSpawnsSeq st reqs).maxConcurrentSessions ∧
        (runSpawnsSeq st reqs).maxConcurrentSessions = st.maxConcurrentSessions := by
  induction reqs with
  | nil => intro st h; exact ⟨h, rfl⟩
  | cons req rest ih =>
    intro st h
    by_cases hge : runningCount st.sessions ≥ st.maxConcurrentSessions
    · simp only [runSpawnsSeq, spawnSession, if_pos hge]
      exact ih st h
    · simp only [runSpawnsSeq, spawnSession, if_neg hge]
      have hlt : runningCount st.sessions < st.maxConcurrentSessions := by omega
      have hb : runningCount (spawnBody st req.sessionId req.task req.now req.pid).sessions ≤
          (spawnBody st req.sessionId req.task req.now req.pid).maxConcurrentSessions := by
        rw [spawnBody_sessions, spawnBody_max]
        have := runningCount_set_le st.sessions
          (spawnedSession req.sessionId req.task req.now req.pid)
        omega
      have hrec := ih (spawnBody st req.sessionId req.task req.now req.pid) hb
      rw [spawnBody_max] at hrec
      exact hrec

/-- C1.  Corrected version.  The admission check itself is faithful: a
spawnSession call whose check runs when the running count is at or above
the cap fails with the capacity error and changes nothing, and any
sequence of non-interleaved spawnSession calls keeps the running count
at or below the cap.  The original claim fails because the check and the
transition to running are separated by awaited filesystem writes, so two
interleaved calls can both pass the check and both commit, exceeding the
cap; see the counterexample. -/
theorem C1_sequential_cap :
    (∀ (st : ManagerState) (sid : String) (task : TaskDescriptor) (now pid : Nat),
       runningCount st.sessions ≥ st.maxConcurrentSessions →
       spawnSession st sid task now pid =
         Except.error (capacityMsg st.maxConcurrentSessions)) ∧
    (∀ (st : ManagerState) (reqs : List SpawnReq),
       runningCount st.sessions ≤ st.maxConcurrentSessions →
       runningCount (runSpawnsSeq st reqs).sessions ≤ st.maxConcurrentSessions) := by
  constructor
  · intro st sid task now pid hge
    simp [spawnSession, if_pos hge]
  · intro st reqs h
    have hrec := runSpawnsSeq_cap reqs st h
    rw [hrec.2] at hrec
    exact hrec.1

/-- C1, witness.  A cap 1 controller whose slot is held by a recovered
running session rejects a new spawn with the capacity error, and two
sequential spawn requests against an empty cap 1 controller leave at most
one running session. -/
theorem C1_sequential_cap_witness :
    spawnSession stFullCap1 sidS task0 1 8 = Except.error (capacityMsg 1) ∧
    runningCount (runSpawnsSeq (freshManager 1 0)
      [{ sessionId := sidS, task := task0, now := 0, pid := 1 },
       { sessionId := sidA, task := task0, now := 0, pid := 2 }]).sessions ≤ 1 := by
  constructor
  · exact C1_sequential_cap.1 stFullCap1 sidS task0 1 8 (by decide)
  · exact C1_sequential_cap.2 (freshManager 1 0) _ (by decide)

/-- C5.  The exit callback computes the terminal status from the exit
code: completed exactly for exit code zero, failed otherwise; and the
result record it persists is exactly the success flag, exit code, output
and completion time that getResult then returns. -/
theorem C5_exit_result :
    ∀ (st : ManagerState) (sid : String) (code : Int) (now : Nat) (s : Session),
      getSession st.sessions sid = some s →
      ((getSession (handleExit st sid code now).sessions sid).map Session.status =
        some (if code = 0 then DStatus.completed else DStatus.failed)) ∧
      getResult (handleExit st sid code now) sid =
        some { success := decide (code = 0), exitCode := code,
               output := s.output, completedAt := now } := by
  intro st sid code now s h
  rw [handleExit_found st sid code now s h]
  constructor
  · have hid : (exitSession s code now).id = sid := by
      show s.id = sid
      exact getSession_id _ _ _ h
    have := getSession_set_self st.sessions (exitSession s code now)
    rw [hid] at this
    rw [this]
    rfl
  · exact lookupResult_set_self _ _ _

/-- C5, witness.  Exit code 0 of the single spawned session yields status
completed and a result record with success true and exit code 0. -/
theorem C5_exit_result_witness :
    ((getSession (handleExit stSpawned sidA 0 9).sessions sidA).map Session.status =
      some (if (0 : Int) = 0 then DStatus.completed else DStatus.failed)) ∧
    getResult (handleExit stSpawned sidA 0 9) sidA =
      some { success := decide ((0 : Int) = 0), exitCode := 0,
             output := (spawnedSession sidA task0 0 7).output, completedAt := 9 } :=
  C5_exit_result stSpawned sidA 0 9 (spawnedSession sidA task0 0 7) (by decide)

/-- C8.  Behaviour of DelegationQueue.enqueue: a successful immediate
spawn returns the session id unqueued and pushes nothing; a capacity
rejection appends one entry at the tail and returns its one-based
position, the new queue length; any other spawn failure is rethrown
unchanged and nothing is enqueued. -/
theorem C8_enqueue_cases :
    (∀ (st : ManagerState) (q : QueueState) (task : TaskDescriptor)
       (qid sid : String) (now pid : Nat),
       runningCount st.sessions < st.maxConcurrentSessions →
       enqueue st q none task qid sid now pid =
         Except.ok (spawnBody st sid task now pid, q, EnqueueResult.notQueued sid)) ∧
    (∀ (st : ManagerState) (q : QueueState) (ioErr : Option String)
       (task : TaskDescriptor) (qid sid : String) (now pid : Nat),
       runningCount st.sessions ≥ st.maxConcurrentSessions →
       enqueue st q ioErr task qid sid now pid =
         Except.ok (st,
           { queue := q.queue ++ [{ id := qid, task := task, addedAt := now }],
             processing := q.processing },
           EnqueueResult.queuedRes qid (q.queue.length + 1))) ∧
    (∀ (st : ManagerState) (q : QueueState) (msg : String)
       (task : TaskDescriptor) (qid sid : String) (now pid : Nat),
       runningCount st.sessions < st.maxConcurrentSessions →
       strIncludes msg capacityMarker = false →
       enqueue st q (some msg) task qid sid now pid = Except.error msg) := by
  refine ⟨?_, ?_, ?_⟩
  · intro st q task qid sid now pid hlt
    simp [enqueue, trySpawn, if_neg (not_le.mpr hlt)]
  · intro st q ioErr task qid sid now pid hge
    simp only [enqueue, trySpawn, if_pos hge]
    rw [marker_in_capacityMsg st.maxConcurrentSessions]
    simp
  · intro st q msg task qid sid now pid hlt hmsg
    simp only [enqueue, trySpawn, if_neg (not_le.mpr hlt)]
    simp [hmsg]

/-- C8, witness.  Against a cap 1 controller: an empty controller spawns
directly; a full controller queues the task at position 1; a non-capacity
failure is rethrown. -/
theorem C8_enqueue_cases_witness :
    enqueue (freshManager 1 0) emptyQueue none task0 qidQ sidS 0 1 =
      Except.ok (spawnBody (freshManager 1 0) sidS task0 0 1, emptyQueue,
        EnqueueResult.notQueued sidS) ∧
    enqueue stFullCap1 emptyQueue none task0 qidQ sidS 0 1 =
      Except.ok (stFullCap1,
        { queue := [{ id := qidQ, task := task0, addedAt := 0 }], processing := false },
        EnqueueResult.queuedRes qidQ 1) ∧
    enqueue (freshManager 1 0) emptyQueue (some msgBoom) task0 qidQ sidS 0 1 =
      Except.error msgBoom := by
  refine ⟨?_, ?_, ?_⟩
  · exact C8_enqueue_cases.1 (freshManager 1 0) emptyQueue task0 qidQ sidS 0 1 (by decide)
  · exact C8_enqueue_cases.2.1 stFullCap1 emptyQueue none task0 qidQ sidS 0 1 (by decide)
  · exact C8_enqueue_cases.2.2 (freshManager 1 0) emptyQueue msgBoom task0 qidQ sidS 0 1
      (by decide) (by decide)

/-- The list of entries admitted by the drain loop is a subsequence of
the queue, in order. -/
theorem processQueue_sublist (rs : List AttemptResult) :
    ∀ q : List QueueItem, List.Sublist (processQueue q rs).1 q := by
  induction rs with
  | nil => intro q; simp [processQueue]
  | cons r rest ih =>
    intro q
    cases q with
    | nil => cases r <;> simp [processQueue]
    | cons a tl =>
      cases r with
      | success =>
        simpa [processQueue] using List.Sublist.cons₂ a (ih tl)
      | capacity =>
        simpa [processQueue] using ih (a :: tl)
      | failure =>
        simpa [processQueue] using List.Sublist.cons a (ih tl)

/-- C9.  FIFO admission: the entries admitted by the drain loop form an
order-preserving subsequence of the queue, so when A precedes B in the
queue and both are admitted, A is admitted first; a capacity outcome
retries the same head without reordering; a success admits exactly the
head; a non-capacity failure drops the head without admitting it. -/
theorem C9_fifo :
    (∀ (q : List QueueItem) (rs : List AttemptResult),
       List.Sublist (processQueue q rs).1 q) ∧
    (∀ (q : List QueueItem) (rs : List AttemptResult),
       processQueue q (AttemptResult.capacity :: rs) = processQueue q rs) ∧
    (∀ (a : QueueItem) (rest : List QueueItem) (rs : List AttemptResult),
       processQueue (a :: rest) (AttemptResult.success :: rs) =
         (a :: (processQueue rest rs).1, (processQueue rest rs).2)) ∧
    (∀ (a : QueueItem) (rest : List QueueItem) (rs : List AttemptResult),
       processQueue (a :: rest) (AttemptResult.failure :: rs) =
         processQueue rest rs) := by
  refine ⟨fun q rs => processQueue_sublist rs q, ?_, fun a rest rs => rfl,
    fun a rest rs => rfl⟩
  intro q rs
  cases q with
  | nil => cases rs <;> rfl
  | cons a tl => rfl

/-- The kill status chosen from a reason is never the running status. -/
theorem killStatus_ne_running (reason : String) :
    (if reason = "timeout" then DStatus.timeout else DStatus.killed) ≠
      DStatus.running := by
  split <;> simp

/-- C3.  Corrected version.  killSession indeed never changes a session
whose status is already terminal: it returns false and leaves the state
untouched.  The exit callback, however, overwrites the status, completion
time and exit code of any tracked session unconditionally, terminal or
not, so when a forced kill is observed first and the natural exit of the
signaled process arrives afterwards, the exit outcome wins and
completedAt and exitCode are reassigned; see the counterexample. -/
theorem C3_terminal_overwrite :
    (∀ (st : ManagerState) (sid reason : String) (now : Nat) (s : Session),
       getSession st.sessions sid = some s → s.status.isTerminal = true →
       killSession st sid reason now = (st, false)) ∧
    (∀ (st : ManagerState) (sid : String) (code : Int) (now : Nat) (s : Session),
       getSession st.sessions sid = some s →
       ∃ s2, getSession (handleExit st sid code now).sessions sid = some s2 ∧
         s2.status = (if code = 0 then DStatus.completed else DStatus.failed) ∧
         s2.completedAt = some now ∧ s2.exitCode = some code) := by
  constructor
  · intro st sid reason now s h hterm
    refine killSession_guard_false st sid reason now s h ?_
    rintro ⟨-, hr⟩
    rw [hr] at hterm
    simp [DStatus.isTerminal] at hterm
  · intro st sid code now s h
    rw [handleExit_found st sid code now s h]
    refine ⟨exitSession s code now, ?_, rfl, rfl, rfl⟩
    have hid : (exitSession s code now).id = sid := by
      show s.id = sid
      exact getSession_id _ _ _ h
    have := getSession_set_self st.sessions (exitSession s code now)
    rw [hid] at this
    exact this

/-- C3, witness.  On the state whose session is already killed, a second
kill is a no-op with result false, while the exit callback still rewrites
status, completion time and exit code. -/
theorem C3_terminal_overwrite_witness :
    killSession stKilled sidA reasonUser 7 = (stKilled, false) ∧
    (∃ s2, getSession (handleExit stKilled sidA 143 6).sessions sidA = some s2 ∧
      s2.status = (if (143 : Int) = 0 then DStatus.completed else DStatus.failed) ∧
      s2.completedAt = some 6 ∧ s2.exitCode = some 143) := by
  constructor
  · exact C3_terminal_overwrite.1 stKilled sidA reasonUser 7
      ({ spawnedSession sidA task0 0 7 with
          status := DStatus.killed, completedAt := some 5 }) (by decide) (by decide)
  · exact C3_terminal_overwrite.2 stKilled sidA 143 6
      ({ spawnedSession sidA task0 0 7 with
          status := DStatus.killed, completedAt := some 5 }) (by decide)

/-- C4.  Corrected version.  killSession returns false and changes
nothing when the session is untracked, or not running, or — this is where
the original claim fails — running without a live process handle, as every
session recovered after a restart is.  When the session is running with a
live handle, it signals the whole process group (the negated pid), sets
killed or timeout according to the reason, persists the kill record, and
returns true; a second call then returns false and changes nothing. -/
theorem C4_kill_behaviour :
    (∀ (st : ManagerState) (sid reason : String) (now : Nat),
       getSession st.sessions sid = none →
       killSession st sid reason now = (st, false)) ∧
    (∀ (st : ManagerState) (sid reason : String) (now : Nat) (s : Session),
       getSession st.sessions sid = some s →
       ¬(s.child.isSome = true ∧ s.status = DStatus.running) →
       killSession st sid reason now = (st, false)) ∧
    (∀ (st : ManagerState) (sid reason : String) (now : Nat) (s : Session) (p : Nat),
       getSession st.sessions sid = some s → s.child = some p →
       s.status = DStatus.running →
       (killSession st sid reason now).2 = true ∧
       (killSession st sid reason now).1.events =
         st.events ++
           [MEvent.signaled (-(p : Int)) "SIGTERM",
            MEvent.wroteStatus
              (killRecord sid s
                (if reason = "timeout" then DStatus.timeout else DStatus.killed)
                reason now)] ∧
       (∃ s2, getSession (killSession st sid reason now).1.sessions sid = some s2 ∧
          s2.status =
            (if reason = "timeout" then DStatus.timeout else DStatus.killed) ∧
          s2.completedAt = some now) ∧
       killSession (killSession st sid reason now).1 sid reason now =
         ((killSession st sid reason now).1, false)) := by
  refine ⟨?_, ?_, ?_⟩
  · intro st sid reason now h
    exact killSession_not_found st sid reason now h
  · intro st sid reason now s h hg
    exact killSession_guard_false st sid reason now s h hg
  · intro st sid reason now s p h hc hr
    have hsid : s.id = sid := getSession_id _ _ _ h
    subst hsid
    rw [killSession_success st s.id reason now s p h hc hr]
    have hget := getSession_set_self st.sessions
      ({ s with
          status := if reason = "timeout" then DStatus.timeout else DStatus.killed,
          completedAt := some now })
    refine ⟨rfl, rfl, ⟨_, hget, rfl, rfl⟩, ?_⟩
    refine killSession_guard_false _ s.id reason now _ hget ?_
    rintro ⟨-, hrun⟩
    exact killStatus_ne_running reason hrun

/-- C4, witness.  The three branches at concrete states: untracked id on
an empty controller, recovered running session without a handle, and a
live running session that is killed and then killed again. -/
theorem C4_kill_behaviour_witness :
    killSession (freshManager 3 0) sidA reasonUser 9 = (freshManager 3 0, false) ∧
    killSession stOrphan sidA reasonUser 9 = (stOrphan, false) ∧
    (killSession stSpawned sidA reasonUser 5).2 = true ∧
    killSession (killSession stSpawned sidA reasonUser 5).1 sidA reasonUser 5 =
      ((killSession stSpawned sidA reasonUser 5).1, false) := by
  have h3 := C4_kill_behaviour.2.2 stSpawned sidA reasonUser 5
    (spawnedSession sidA task0 0 7) 7 (by decide) (by decide) (by decide)
  refine ⟨?_, ?_, h3.1, h3.2.2.2⟩
  · exact C4_kill_behaviour.1 (freshManager 3 0) sidA reasonUser 9 (by decide)
  · exact C4_kill_behaviour.2.1 stOrphan sidA reasonUser 9
      (sessionOfRecord runRecA) (by decide) (by decide)

/-- Filtering out another key leaves a session lookup unchanged. -/
theorem getSession_filter_keep (l : List Session) (rid sid : String) (h : rid ≠ sid) :
    getSession (l.filter (fun s => decide (s.id ≠ rid))) sid = getSession l sid := by
  induction l with
  | nil => rfl
  | cons t rest ih =>
    rw [List.filter_cons]
    by_cases htr : t.id = rid
    · have hd : decide (t.id ≠ rid) = false := by simp [htr]
      rw [hd]
      simp only [Bool.false_eq_true, if_false]
      have hts : t.id ≠ sid := by rw [htr]; exact h
      rw [ih]
      simp only [getSession]
      rw [if_neg hts]
    · have hd : decide (t.id ≠ rid) = true := by simp [htr]
      rw [hd]
      simp only [if_true]
      simp only [getSession]
      by_cases hts : t.id = sid
      · rw [if_pos hts, if_pos hts]
      · rw [if_neg hts, if_neg hts, ih]

/-- Filtering out a key makes its session lookup fail. -/
theorem getSession_filter_self (l : List Session) (rid : String) :
    getSession (l.filter (fun s => decide (s.id ≠ rid))) rid = none := by
  induction l with
  | nil => rfl
  | cons t rest ih =>
    rw [List.filter_cons]
    by_cases htr : t.id = rid
    · have hd : decide (t.id ≠ rid) = false := by simp [htr]
      rw [hd]
      simpa using ih
    · have hd : decide (t.id ≠ rid) = true := by simp [htr]
      rw [hd]
      simp only [if_true, getSession]
      rw [if_neg htr]
      exact ih

/-- A failing session lookup keeps failing on any filtered list. -/
theorem getSession_none_filter (l : List Session) (p : Session → Bool) (sid : String)
    (h : getSession l sid = none) : getSession (l.filter p) sid = none := by
  induction l with
  | nil => rfl
  | cons t rest ih =>
    simp only [getSession] at h
    split at h
    · cases h
    · next hne =>
      rw [List.filter_cons]
      split
      · simp only [getSession]
        rw [if_neg hne]
        exact ih h
      · exact ih h

/-- Filtering out another key leaves a store lookup unchanged. -/
theorem lookupStore_filter_keep (l : List StatusRecord) (rid sid : String)
    (h : rid ≠ sid) :
    lookupStore (l.filter (fun r => decide (r.id ≠ rid))) sid = lookupStore l sid := by
  induction l with
  | nil => rfl
  | cons t rest ih =>
    rw [List.filter_cons]
    by_cases htr : t.id = rid
    · have hd : decide (t.id ≠ rid) = false := by simp [htr]
      rw [hd]
      simp only [Bool.false_eq_true, if_false]
      have hts : t.id ≠ sid := by rw [htr]; exact h
      rw [ih]
      simp only [lookupStore]
      rw [if_neg hts]
    · have hd : decide (t.id ≠ rid) = true := by simp [htr]
      rw [hd]
      simp only [if_true]
      simp only [lookupStore]
      by_cases hts : t.id = sid
      · rw [if_pos hts, if_pos hts]
      · rw [if_neg hts, if_neg hts, ih]

/-- Removing one session directory leaves the status of any other session
unchanged. -/
theorem checkStatus_removeSession (st : ManagerState) (rid sid : String)
    (h : rid ≠ sid) : checkStatus (removeSession st rid) sid = checkStatus st sid := by
  unfold checkStatus removeSession
  simp only
  rw [getSession_filter_keep st.sessions rid sid h]
  cases getSession st.sessions sid with
  | none =>
    simp only
    exact lookupStore_filter_keep st.store rid sid h
  | some s => rfl

/-- A non-deletable status makes the deletion test of cleanup false. -/
theorem deletableRec_false (st : ManagerState) (c : Int) (sid : String)
    (s : StatusRecord) (h : checkStatus st sid = some s)
    (hnd : ¬(s.status = DStatus.completed ∨ s.status = DStatus.failed)) :
    deletableRec st c sid = false := by
  unfold deletableRec
  rw [h]
  simp only
  rw [if_neg hnd]

/-- The cleanup loop never adds durable records. -/
theorem cleanupLoop_store_subset (l : List StatusRecord) :
    ∀ (st : ManagerState) (c : Int) (f : List String) (x : StatusRecord),
      x ∈ (cleanupLoop c f st l).store → x ∈ st.store := by
  induction l with
  | nil => intro st c f x hx; exact hx
  | cons r rest ih =>
    intro st c f x hx
    simp only [cleanupLoop] at hx
    split at hx
    · split at hx
      · exact hx
      · have := ih _ _ _ _ hx
        simp only [removeSession] at this
        exact List.mem_of_mem_filter this
    · exact ih _ _ _ _ hx

/-- The cleanup loop never touches the event trace. -/
theorem cleanupLoop_events (l : List StatusRecord) :
    ∀ (st : ManagerState) (c : Int) (f : List String),
      (cleanupLoop c f st l).events = st.events := by
  induction l with
  | nil => intro st c f; rfl
  | cons r rest ih =>
    intro st c f
    simp only [cleanupLoop]
    split
    · split
      · rfl
      · rw [ih]
        rfl
    · exact ih st c f

/-- A session whose observed status is not deletable survives the cleanup
loop: its status answer and its durable records are preserved. -/
theorem cleanupLoop_keep (l : List StatusRecord) :
    ∀ (st : ManagerState) (c : Int) (f : List String) (sid : String)
      (s : StatusRecord),
      checkStatus st sid = some s →
      ¬(s.status = DStatus.completed ∨ s.status = DStatus.failed) →
      checkStatus (cleanupLoop c f st l) sid = some s ∧
      (∀ x, x ∈ st.store → x.id = sid → x ∈ (cleanupLoop c f st l).store) := by
  induction l with
  | nil => intro st c f sid s h hnd; exact ⟨h, fun x hx _ => hx⟩
  | cons r rest ih =>
    intro st c f sid s h hnd
    simp only [cleanupLoop]
    by_cases hrid : r.id = sid
    · have hdel : deletableRec st c r.id = false := by
        rw [hrid]
        exact deletableRec_false st c sid s h hnd
      rw [hdel]
      simp only [Bool.false_eq_true, if_false]
      exact ih st c f sid s h hnd
    · split
      · split
        · exact ⟨h, fun x hx _ => hx⟩
        · have hcs : checkStatus (removeSession st r.id) sid = some s := by
            rw [checkStatus_removeSession st r.id sid hrid]
            exact h
          have hrec := ih (removeSession st r.id) c f sid s hcs hnd
          refine ⟨hrec.1, fun x hx hxid => ?_⟩
          refine hrec.2 x ?_ hxid
          simp only [removeSession, List.mem_filter]
          refine ⟨hx, ?_⟩
          simp [hxid, hrid]
          intro he
          exact hrid he.symm
      · exact ih st c f sid s h hnd

/-- A session absent from the in-memory index stays absent through the
cleanup loop. -/
theorem cleanupLoop_mem_none (l : List StatusRecord) :
    ∀ (st : ManagerState) (c : Int) (f : List String) (sid : String),
      getSession st.sessions sid = none →
      getSession (cleanupLoop c f st l).sessions sid = none := by
  induction l with
  | nil => intro st c f sid h; exact h
  | cons r rest ih =>
    intro st c f sid h
    simp only [cleanupLoop]
    split
    · split
      · exact h
      · refine ih _ _ _ _ ?_
        simp only [removeSession]
        exact getSession_none_filter st.sessions _ sid h
    · exact ih st c f sid h

/-- A tracked session whose in-memory status is not deletable survives
the cleanup loop unchanged in the in-memory index. -/
theorem cleanupLoop_mem_keep (l : List StatusRecord) :
    ∀ (st : ManagerState) (c : Int) (f : List String) (sid : String) (sess : Session),
      getSession st.sessions sid = some sess →
      ¬(sess.status = DStatus.completed ∨ sess.status = DStatus.failed) →
      getSession (cleanupLoop c f st l).sessions sid = some sess := by
  induction l with
  | nil => intro st c f sid sess h _; exact h
  | cons r rest ih =>
    intro st c f sid sess h hnd
    simp only [cleanupLoop]
    by_cases hrid : r.id = sid
    · have hcs : checkStatus st sid =
          some { id := sid, status := sess.status, task := sess.task,
                 projectId := none, startedAt := sess.startedAt,
                 completedAt := sess.completedAt, exitCode := none,
                 killReason := none, pid := sess.pid } := by
        unfold checkStatus
        rw [h]
      have hdel : deletableRec st c r.id = false := by
        rw [hrid]
        exact deletableRec_false st c sid _ hcs hnd
      rw [hdel]
      simp only [Bool.false_eq_true, if_false]
      exact ih st c f sid sess h hnd
    · split
      · split
        · exact h
        · refine ih _ _ _ _ _ ?_ hnd
          simp only [removeSession]
          rw [getSession_filter_keep st.sessions r.id sid hrid]
          exact h
      · exact ih st c f sid sess h hnd

/-- The in-memory entry of a session after the cleanup loop is either its
old entry or gone. -/
theorem cleanupLoop_mem_or_none (l : List StatusRecord) :
    ∀ (st : ManagerState) (c : Int) (f : List String) (sid : String),
      getSession (cleanupLoop c f st l).sessions sid = getSession st.sessions sid ∨
      getSession (cleanupLoop c f st l).sessions sid = none := by
  induction l with
  | nil => intro st c f sid; exact Or.inl rfl
  | cons r rest ih =>
    intro st c f sid
    simp only [cleanupLoop]
    split
    · split
      · exact Or.inl rfl
      · by_cases hrid : r.id = sid
        · refine Or.inr ?_
          refine cleanupLoop_mem_none rest _ _ _ _ ?_
          simp only [removeSession]
          rw [hrid]
          exact getSession_filter_self st.sessions sid
        · rcases ih (removeSession st r.id) c f sid with hsame | hnone
          · refine Or.inl ?_
            rw [hsame]
            simp only [removeSession]
            exact getSession_filter_keep st.sessions r.id sid hrid
          · exact Or.inr hnone
    · exact ih st c f sid

/-- Every durable record of a session whose observed status is deletable
and listed in the remaining directory entries is removed by the cleanup
loop when no deletion fails. -/
theorem cleanupLoop_delete (l : List StatusRecord) :
    ∀ (st : ManagerState) (c : Int) (sid : String) (s : StatusRecord) (comp : Nat),
      (∃ r, r ∈ l ∧ r.id = sid) →
      checkStatus st sid = some s →
      (s.status = DStatus.completed ∨ s.status = DStatus.failed) →
      s.completedAt = some comp →
      (comp : Int) < c →
      ∀ x ∈ (cleanupLoop c [] st l).store, x.id ≠ sid := by
  induction l with
  | nil =>
    intro st c sid s comp hex
    rcases hex with ⟨r, hr, -⟩
    cases hr
  | cons r rest ih =>
    intro st c sid s comp hex h hs hcomp hlt x hx
    by_cases hrid : r.id = sid
    · have hdel : deletableRec st c r.id = true := by
        unfold deletableRec
        rw [hrid, h]
        simp only
        rw [if_pos hs, hcomp]
        simpa using hlt
      simp only [cleanupLoop, hdel, if_true] at hx
      simp only [List.not_mem_nil, if_false] at hx
      have hx2 := cleanupLoop_store_subset rest _ _ _ _ hx
      simp only [removeSession, List.mem_filter] at hx2
      intro hxe
      have := hx2.2
      rw [hxe, hrid] at this
      simp at this
    · rcases hex with ⟨r0, hr0, hid0⟩
      have hr0rest : r0 ∈ rest := by
        cases List.mem_cons.mp hr0 with
        | inl he => exact absurd (he ▸ hid0) hrid
        | inr hm => exact hm
      simp only [cleanupLoop] at hx
      split at hx
      · simp only [List.not_mem_nil, if_false] at hx
        have hcs : checkStatus (removeSession st r.id) sid = some s := by
          rw [checkStatus_removeSession st r.id sid hrid]
          exact h
        exact ih _ _ _ _ _ ⟨r0, hr0rest, hid0⟩ hcs hs hcomp hlt x hx
      · exact ih _ _ _ _ _ ⟨r0, hr0rest, hid0⟩ h hs hcomp hlt x hx

/-- C6.  Corrected version.  cleanup deletes exactly the records whose
observed status is completed or failed and whose completion time is older
than the retention cutoff; records observed as running, pending, spawning,
killed or timeout are never deleted (so killed and timeout sessions are
never reclaimed, contrary to the original claim); and one failing
deletion ends the whole run, leaving the remaining records untouched,
instead of being skipped per record. -/
theorem C6_cleanup_behaviour :
    (∀ (st : ManagerState) (now : Nat) (failRm : List String)
       (r s : StatusRecord),
       r ∈ st.store → checkStatus st r.id = some s →
       ¬(s.status = DStatus.completed ∨ s.status = DStatus.failed) →
       r ∈ (cleanup st now failRm).store) ∧
    (∀ (st : ManagerState) (now : Nat) (r s : StatusRecord) (comp : Nat),
       r ∈ st.store → checkStatus st r.id = some s →
       (s.status = DStatus.completed ∨ s.status = DStatus.failed) →
       s.completedAt = some comp →
       (comp : Int) < (now : Int) - (st.cleanupAfterMs : Int) →
       ∀ x ∈ (cleanup st now []).store, x.id ≠ r.id) ∧
    (∀ (st : ManagerState) (cutoff : Int) (failRm : List String)
       (r : StatusRecord) (rest : List StatusRecord),
       deletableRec st cutoff r.id = true → r.id ∈ failRm →
       cleanupLoop cutoff failRm st (r :: rest) = st) := by
  refine ⟨?_, ?_, ?_⟩
  · intro st now failRm r s hr hcs hnd
    exact (cleanupLoop_keep st.store st _ failRm r.id s hcs hnd).2 r hr rfl
  · intro st now r s comp hr hcs hs hcomp hlt
    exact cleanupLoop_delete st.store st _ r.id s comp ⟨r, hr, rfl⟩ hcs hs hcomp hlt
  · intro st cutoff failRm r rest hdel hmem
    simp only [cleanupLoop, hdel, if_true]
    rw [if_pos hmem]

/-- C6, witness.  On the concrete store with a killed record and two old
completed records: the killed record survives a window zero cleanup, the
first completed record is fully deleted, and a failing deletion on the
single listed record ends the run with nothing deleted. -/
theorem C6_cleanup_behaviour_witness :
    killedRecK1 ∈ (cleanup stC6 1000 []).store ∧
    compRec idC2 ∉ (cleanup stC6 1000 []).store ∧
    cleanupLoop 1000 [idC2] stC6 [compRec idC2] = stC6 := by
  refine ⟨?_, ?_, ?_⟩
  · exact C6_cleanup_behaviour.1 stC6 1000 [] killedRecK1 killedRecK1
      (by decide) (by decide) (by decide)
  · intro hmem
    exact C6_cleanup_behaviour.2.1 stC6 1000 (compRec idC2) (compRec idC2) 0
      (by decide) (by decide) (by decide) (by decide) (by decide)
      (compRec idC2) hmem rfl
  · exact C6_cleanup_behaviour.2.2 stC6 1000 [idC2] (compRec idC2) []
      (by decide) (by decide)

/-- Lookup inside the recovered index finds the loaded copy of a durable
record, provided directory names are unique. -/
theorem getSession_loadedSessions (store : List StatusRecord) :
    ∀ r : StatusRecord, (store.map StatusRecord.id).Nodup → r ∈ store →
      ¬(r.status = DStatus.completed ∨ r.status = DStatus.failed) →
      getSession (loadedSessions store) r.id = some (sessionOfRecord r) := by
  induction store with
  | nil => intro r _ hr _; cases hr
  | cons r0 rest ih =>
    intro r hnd hr hkeep
    have hnd2 : (rest.map StatusRecord.id).Nodup := by
      simp only [List.map_cons, List.nodup_cons] at hnd
      exact hnd.2
    cases List.mem_cons.mp hr with
    | inl heq =>
      cases heq
      simp only [loadedSessions]
      rw [if_neg hkeep]
      simp [getSession, sessionOfRecord]
    | inr hmem =>
      have hne : r0.id ≠ r.id := by
        simp only [List.map_cons, List.nodup_cons] at hnd
        intro he
        exact hnd.1 (he ▸ List.mem_map_of_mem StatusRecord.id hmem)
      simp only [loadedSessions]
      split
      · exact ih r hnd2 hmem hkeep
      · simp only [getSession, sessionOfRecord]
        rw [if_neg hne]
        exact ih r hnd2 hmem hkeep

/-- C7.  Corrected version.  On initialization after a restart, every
durable record whose status is neither completed nor failed — including
killed and timeout records, contrary to the original claim — is loaded
into the in-memory index with no process handle; only completed and
failed records are left out; and checkStatus on a recovered running
session answers its running record instead of failing. -/
theorem C7_recovery :
    (∀ (store : List StatusRecord) (r : StatusRecord),
       r ∈ store → ¬(r.status = DStatus.completed ∨ r.status = DStatus.failed) →
       sessionOfRecord r ∈ loadedSessions store) ∧
    (∀ (store : List StatusRecord) (s : Session),
       s ∈ loadedSessions store →
       ¬(s.status = DStatus.completed ∨ s.status = DStatus.failed) ∧
       s.child = none) ∧
    (∀ (cap win : Nat) (store : List StatusRecord)
       (results : List (String × ResultRecord)) (r : StatusRecord),
       (store.map StatusRecord.id).Nodup → r ∈ store →
       r.status = DStatus.running →
       checkStatus (recoverManager cap win store results) r.id =
         some { id := r.id, status := DStatus.running, task := r.task,
                projectId := none, startedAt := r.startedAt,
                completedAt := r.completedAt, exitCode := none,
                killReason := none, pid := r.pid }) := by
  refine ⟨?_, ?_, ?_⟩
  · intro store r hr hkeep
    induction store with
    | nil => cases hr
    | cons r0 rest ih =>
      simp only [loadedSessions]
      cases List.mem_cons.mp hr with
      | inl heq =>
        cases heq
        rw [if_neg hkeep]
        exact List.mem_cons_self _ _
      | inr hmem =>
        split
        · exact ih hmem
        · exact List.mem_cons_of_mem _ (ih hmem)
  · intro store s hs
    induction store with
    | nil => cases hs
    | cons r0 rest ih =>
      simp only [loadedSessions] at hs
      split at hs
      · exact ih hs
      · next hkeep =>
        cases List.mem_cons.mp hs with
        | inl heq =>
          cases heq
          exact ⟨hkeep, rfl⟩
        | inr hmem => exact ih hmem
  · intro cap win store results r hnd hr hrun
    have hkeep : ¬(r.status = DStatus.completed ∨ r.status = DStatus.failed) := by
      rw [hrun]
      simp
    have hget := getSession_loadedSessions store r hnd hr hkeep
    unfold checkStatus recoverManager
    simp only
    rw [hget]
    simp only [sessionOfRecord]
    rw [hrun]

/-- C7, witness.  A store with one running record: its loaded copy is in
the index without a handle, and checkStatus answers running. -/
theorem C7_recovery_witness :
    sessionOfRecord runRecA ∈ loadedSessions [runRecA] ∧
    (sessionOfRecord runRecA).child = none ∧
    checkStatus (recoverManager 3 0 [runRecA] []) runRecA.id =
      some { id := runRecA.id, status := DStatus.running, task := runRecA.task,
             projectId := none, startedAt := runRecA.startedAt,
             completedAt := runRecA.completedAt, exitCode := none,
             killReason := none, pid := runRecA.pid } := by
  refine ⟨?_, ?_, ?_⟩
  · exact C7_recovery.1 [runRecA] runRecA (by decide) (by decide)
  · exact (C7_recovery.2.1 [runRecA] (sessionOfRecord runRecA)
      (C7_recovery.1 [runRecA] runRecA (by decide) (by decide))).2
  · exact C7_recovery.2.2 3 0 [runRecA] [] runRecA (by decide) (by decide) (by decide)

/-- The running sessions split into orphaned and live ones. -/
theorem runningCount_split (l : List Session) :
    runningCount l = orphanRunningCount l + liveRunningCount l := by
  induction l with
  | nil => rfl
  | cons s rest ih =>
    simp only [runningCount, orphanRunningCount, liveRunningCount,
      List.countP_cons] at *
    by_cases hs : s.status = DStatus.running
    · cases hc : s.child with
      | none => simp [hs, hc]; omega
      | some p => simp [hs, hc]; omega
    · simp [hs]
      omega

/-- Counts of orphaned and live running sessions of a recovered index. -/
theorem counts_loadedSessions (store : List StatusRecord) :
    orphanRunningCount (loadedSessions store) = storeRunningCount store ∧
    liveRunningCount (loadedSessions store) = 0 := by
  induction store with
  | nil => exact ⟨rfl, rfl⟩
  | cons r rest ih =>
    simp only [orphanRunningCount, liveRunningCount, storeRunningCount] at ih
    simp only [loadedSessions]
    split
    · next hcf =>
      have hnr : r.status ≠ DStatus.running := by
        rcases hcf with h | h <;> simp [h]
      simp only [orphanRunningCount, liveRunningCount, storeRunningCount,
        List.countP_cons]
      simp [hnr, ih.1, ih.2]
    · simp only [orphanRunningCount, liveRunningCount, storeRunningCount,
        List.countP_cons, sessionOfRecord]
      by_cases hr : r.status = DStatus.running
      · simp [hr, ih.1, ih.2]
      · simp [hr, ih.1, ih.2]

/-- Successful admission implies the check passed, and yields the spawn
body state. -/
theorem spawnSession_ok (st : ManagerState) (sid : String) (task : TaskDescriptor)
    (now pid : Nat) (p2 : ManagerState × String)
    (h : spawnSession st sid task now pid = Except.ok p2) :
    runningCount st.sessions < st.maxConcurrentSessions ∧
    p2 = (spawnBody st sid task now pid, sid) := by
  unfold spawnSession at h
  split at h
  · cases h
  · next hge =>
    refine ⟨by omega, ?_⟩
    cases h
    rfl

/-- C10.  Orphaned running sessions permanently consume admission
capacity: the admission count is the sum of orphaned and live running
sessions, a recovered store contributes every durable running record as
an orphan with no live handle, admission fails whenever live plus
orphaned reaches the cap and a successful fresh admission adds one live
session while keeping every orphan, killSession can never transition an
orphan (no live handle), and cleanup never deletes a record whose
observed status is running. -/
theorem C10_orphans_hold_capacity :
    (∀ l : List Session,
       runningCount l = orphanRunningCount l + liveRunningCount l) ∧
    (∀ (cap win : Nat) (store : List StatusRecord)
       (results : List (String × ResultRecord)),
       orphanRunningCount (recoverManager cap win store results).sessions =
         storeRunningCount store ∧
       liveRunningCount (recoverManager cap win store results).sessions = 0) ∧
    (∀ (st : ManagerState) (sid : String) (task : TaskDescriptor) (now pid : Nat),
       liveRunningCount st.sessions + orphanRunningCount st.sessions ≥
         st.maxConcurrentSessions →
       spawnSession st sid task now pid =
         Except.error (capacityMsg st.maxConcurrentSessions)) ∧
    (∀ (st : ManagerState) (sid : String) (task : TaskDescriptor) (now pid : Nat)
       (p2 : ManagerState × String),
       spawnSession st sid task now pid = Except.ok p2 →
       getSession st.sessions sid = none →
       orphanRunningCount p2.1.sessions = orphanRunningCount st.sessions ∧
       liveRunningCount p2.1.sessions = liveRunningCount st.sessions + 1 ∧
       liveRunningCount p2.1.sessions + orphanRunningCount st.sessions ≤
         st.maxConcurrentSessions) ∧
    (∀ (st : ManagerState) (sid reason : String) (now : Nat) (s : Session),
       getSession st.sessions sid = some s → s.child = none →
       killSession st sid reason now = (st, false)) ∧
    (∀ (st : ManagerState) (now : Nat) (failRm : List String) (sid : String)
       (s : StatusRecord),
       checkStatus st sid = some s → s.status = DStatus.running →
       checkStatus (cleanup st now failRm) sid = some s) := by
  refine ⟨runningCount_split, ?_, ?_, ?_, ?_, ?_⟩
  · intro cap win store results
    exact counts_loadedSessions store
  · intro st sid task now pid hge
    have hsplit := runningCount_split st.sessions
    have hc : runningCount st.sessions ≥ st.maxConcurrentSessions := by
      rw [hsplit]
      omega
    simp [spawnSession, if_pos hc]
  · intro st sid task now pid p2 hok hfresh
    have hh := spawnSession_ok st sid task now pid p2 hok
    have hsplit := runningCount_split st.sessions
    have hlt := hh.1
    rw [hh.2]
    simp only [spawnBody_sessions]
    rw [setSession_append st.sessions _ hfresh]
    have horph : orphanRunningCount
        (st.sessions ++ [spawnedSession sid task now pid]) =
        orphanRunningCount st.sessions := by
      simp [orphanRunningCount, List.countP_append, spawnedSession]
    have hlive : liveRunningCount
        (st.sessions ++ [spawnedSession sid task now pid]) =
        liveRunningCount st.sessions + 1 := by
      simp [liveRunningCount, List.countP_append, spawnedSession]
    refine ⟨horph, hlive, ?_⟩
    rw [hlive]
    omega
  · intro st sid reason now s h hc
    refine killSession_guard_false st sid reason now s h ?_
    rintro ⟨hsome, -⟩
    rw [hc] at hsome
    cases hsome
  · intro st now failRm sid s h hs
    refine (cleanupLoop_keep st.store st _ failRm sid s h ?_).1
    rw [hs]
    simp

/-- C10, witness.  A cap 1 controller recovered over one running record:
the orphan is counted, admission is refused, the orphan cannot be killed,
and cleanup keeps its record. -/
theorem C10_orphans_hold_capacity_witness :
    runningCount stFullCap1.sessions =
      orphanRunningCount stFullCap1.sessions + liveRunningCount stFullCap1.sessions ∧
    orphanRunningCount stFullCap1.sessions = storeRunningCount [runRecA] ∧
    spawnSession stFullCap1 sidS task0 1 8 = Except.error (capacityMsg 1) ∧
    killSession stFullCap1 sidA reasonUser 9 = (stFullCap1, false) ∧
    checkStatus (cleanup stFullCap1 99 []) sidA =
      some { id := sidA, status := DStatus.running, task := runRecA.task,
             projectId := none, startedAt := runRecA.startedAt,
             completedAt := runRecA.completedAt, exitCode := none,
             killReason := none, pid := runRecA.pid } := by
  refine ⟨?_, ?_, ?_, ?_, ?_⟩
  · exact C10_orphans_hold_capacity.1 stFullCap1.sessions
  · exact (C10_orphans_hold_capacity.2.1 1 0 [runRecA] []).1
  · exact C10_orphans_hold_capacity.2.2.1 stFullCap1 sidS task0 1 8 (by decide)
  · exact C10_orphans_hold_capacity.2.2.2.2.1 stFullCap1 sidA reasonUser 9
      (sessionOfRecord runRecA) (by decide) (by decide)
  · exact C10_orphans_hold_capacity.2.2.2.2.2 stFullCap1 99 [] sidA
      ({ id := sidA, status := DStatus.running, task := runRecA.task,
         projectId := none, startedAt := runRecA.startedAt,
         completedAt := runRecA.completedAt, exitCode := none,
         killReason := none, pid := runRecA.pid }) (by decide) (by decide)

/-- Every phase predicate of one session only depends on its durable
history and its in-memory entry. -/
theorem phase_pieces_of_view (st st2 : ManagerState) (sid : String)
    (hh : historyOf st2 sid = historyOf st sid)
    (hg : getSession st2.sessions sid = getSession st.sessions sid) :
    (InS0 st sid → InS0 st2 sid) ∧ (InS2 st sid → InS2 st2 sid) ∧
    (InS3 st sid → InS3 st2 sid) ∧ (InS4 st sid → InS4 st2 sid) ∧
    (InS5 st sid → InS5 st2 sid) := by
  unfold InS0 InS2 InS3 InS4 InS5 memNoneOrStatus
  rw [hh, hg]
  exact ⟨id, id, id, id, id⟩

/-- An operation on a different session id changes neither the durable
history nor the in-memory entry of this one. -/
theorem applyOp_other (st : ManagerState) (sid : String) (op : MOp) :
    ∀ sid2 : String, opSid op = some sid2 → sid2 ≠ sid →
    historyOf (applyOp st op) sid = historyOf st sid ∧
    getSession (applyOp st op).sessions sid = getSession st.sessions sid := by
  cases op with
  | spawnOp s2 task now pid =>
    intro sid2 hs hne0
    have hne : s2 ≠ sid := by
      simp only [opSid] at hs
      injection hs with hs2
      rw [hs2]
      exact hne0
    by_cases hcap : runningCount st.sessions ≥ st.maxConcurrentSessions
    · have hst : applyOp st (MOp.spawnOp s2 task now pid) = st := by
        simp only [applyOp, spawnSession, if_pos hcap]
      rw [hst]
      exact ⟨rfl, rfl⟩
    · simp only [applyOp, spawnSession, if_neg hcap]
      constructor
      · show historyOf (spawnBody st s2 task now pid) sid = historyOf st sid
        unfold historyOf
        rw [spawnBody_events, statusWritesFor_append]
        have h1 : statusWritesFor sid
            [MEvent.wroteStatus (spawnRecord s2 task now),
             MEvent.launched s2 pid,
             MEvent.wroteStatus
               ({ spawnRecord s2 task now with
                   status := DStatus.running, pid := some pid })] = [] := by
          simp [statusWritesFor, spawnRecord, hne]
        rw [h1, List.append_nil]
      · show getSession (spawnBody st s2 task now pid).sessions sid =
          getSession st.sessions sid
        rw [spawnBody_sessions]
        exact getSession_set_ne st.sessions _ sid hne
  | exitOp s2 c n =>
    intro sid2 hs hne0
    have hne : s2 ≠ sid := by
      simp only [opSid] at hs
      injection hs with hs2
      rw [hs2]
      exact hne0
    simp only [applyOp]
    cases hget : getSession st.sessions s2 with
    | none =>
      rw [handleExit_not_found st s2 c n hget]
      exact ⟨rfl, rfl⟩
    | some s =>
      have hsid : s.id = s2 := getSession_id _ _ _ hget
      rw [handleExit_found st s2 c n s hget]
      constructor
      · unfold historyOf
        show statusWritesFor sid
            (st.events ++ [MEvent.wroteStatus (exitRecord s2 s c n)]) =
          statusWritesFor sid st.events
        rw [statusWritesFor_append]
        have h1 : statusWritesFor sid
            [MEvent.wroteStatus (exitRecord s2 s c n)] = [] := by
          simp [statusWritesFor, exitRecord, hne]
        rw [h1, List.append_nil]
      · show getSession (setSession st.sessions (exitSession s c n)) sid =
          getSession st.sessions sid
        refine getSession_set_ne st.sessions _ sid ?_
        show s.id ≠ sid
        rw [hsid]
        exact hne
  | killOp s2 reason n =>
    intro sid2 hs hne0
    have hne : s2 ≠ sid := by
      simp only [opSid] at hs
      injection hs with hs2
      rw [hs2]
      exact hne0
    simp only [applyOp]
    cases hget : getSession st.sessions s2 with
    | none =>
      rw [killSession_not_found st s2 reason n hget]
      exact ⟨rfl, rfl⟩
    | some s =>
      have hsid : s.id = s2 := getSession_id _ _ _ hget
      by_cases hguard : s.child.isSome = true ∧ s.status = DStatus.running
      · obtain ⟨p, hp⟩ := Option.isSome_iff_exists.mp hguard.1
        rw [killSession_success st s2 reason n s p hget hp hguard.2]
        constructor
        · unfold historyOf
          show statusWritesFor sid (st.events ++ _) = statusWritesFor sid st.events
          rw [statusWritesFor_append]
          have h1 : statusWritesFor sid
              [MEvent.signaled (-(p : Int)) "SIGTERM",
               MEvent.wroteStatus
                 (killRecord s2 s
                   (if reason = "timeout" then DStatus.timeout else DStatus.killed)
                   reason n)] = [] := by
            simp [statusWritesFor, killRecord, hne]
          rw [h1, List.append_nil]
        · show getSession (setSession st.sessions _) sid = getSession st.sessions sid
          refine getSession_set_ne st.sessions _ sid ?_
          show s.id ≠ sid
          rw [hsid]
          exact hne
      · rw [killSession_guard_false st s2 reason n s hget hguard]
        exact ⟨rfl, rfl⟩
  | cleanupOp now f =>
    intro sid2 hs hne0
    exact Option.noConfusion hs

/-- A spawnSession call on a never-spawned id either leaves it untouched
after a capacity rejection or moves it to the live running phase. -/
theorem applyOp_spawn_self (st : ManagerState) (sid : String) (task : TaskDescriptor)
    (now pid : Nat) (h0 : InS0 st sid) :
    InS0 (applyOp st (MOp.spawnOp sid task now pid)) sid ∨
    InS2 (applyOp st (MOp.spawnOp sid task now pid)) sid := by
  by_cases hcap : runningCount st.sessions ≥ st.maxConcurrentSessions
  · simp only [applyOp, spawnSession, if_pos hcap]
    exact Or.inl h0
  · simp only [applyOp, spawnSession, if_neg hcap]
    refine Or.inr ⟨?_, ?_⟩
    · show historyOf (spawnBody st sid task now pid) sid = _
      unfold historyOf
      rw [spawnBody_events, statusWritesFor_append,
        show statusWritesFor sid st.events = [] from h0.1]
      simp [statusWritesFor, spawnRecord]
    · show ∃ s, getSession (spawnBody st sid task now pid).sessions sid = some s ∧
        s.status = DStatus.running ∧ s.child.isSome = true
      rw [spawnBody_sessions]
      exact ⟨spawnedSession sid task now pid, getSession_set_self st.sessions _,
        rfl, rfl⟩

/-- An exit event for a never-spawned id changes nothing. -/
theorem handleExit_S0 (st : ManagerState) (sid : String) (c : Int) (n : Nat)
    (h0 : InS0 st sid) : InS0 (handleExit st sid c n) sid := by
  rw [handleExit_not_found st sid c n h0.2]
  exact h0

/-- An exit event for a live running session records its terminal exit
status. -/
theorem handleExit_S2 (st : ManagerState) (sid : String) (c : Int) (n : Nat)
    (h2 : InS2 st sid) : InS3 (handleExit st sid c n) sid := by
  obtain ⟨hh, s, hget, hrun, hchild⟩ := h2
  have hsid : s.id = sid := getSession_id _ _ _ hget
  rw [handleExit_found st sid c n s hget]
  refine ⟨if c = 0 then DStatus.completed else DStatus.failed, ?_, ?_, ?_⟩
  · by_cases hc0 : c = 0 <;> simp [exitLike, hc0]
  · unfold historyOf
    show statusWritesFor sid (st.events ++ [MEvent.wroteStatus (exitRecord sid s c n)]) = _
    rw [statusWritesFor_append, show statusWritesFor sid st.events = _ from hh]
    simp [statusWritesFor, exitRecord]
  · refine Or.inr ⟨exitSession s c n, ?_, rfl⟩
    have h := getSession_set_self st.sessions (exitSession s c n)
    have hid : (exitSession s c n).id = sid := by
      show s.id = sid
      exact hsid
    rw [hid] at h
    exact h

/-- An exit event for a killed session overwrites the kill record. -/
theorem handleExit_S4 (st : ManagerState) (sid : String) (c : Int) (n : Nat)
    (h4 : InS4 st sid) : InS5 (handleExit st sid c n) sid := by
  obtain ⟨k, hk, hh, s, hget, hstat⟩ := h4
  have hsid : s.id = sid := getSession_id _ _ _ hget
  rw [handleExit_found st sid c n s hget]
  refine ⟨k, if c = 0 then DStatus.completed else DStatus.failed, hk, ?_, ?_, ?_⟩
  · by_cases hc0 : c = 0 <;> simp [exitLike, hc0]
  · unfold historyOf
    show statusWritesFor sid (st.events ++ [MEvent.wroteStatus (exitRecord sid s c n)]) = _
    rw [statusWritesFor_append, show statusWritesFor sid st.events = _ from hh]
    simp [statusWritesFor, exitRecord]
  · refine Or.inr ⟨exitSession s c n, ?_, rfl⟩
    have h := getSession_set_self st.sessions (exitSession s c n)
    have hid : (exitSession s c n).id = sid := by
      show s.id = sid
      exact hsid
    rw [hid] at h
    exact h

/-- A kill on a never-spawned id changes nothing. -/
theorem kill_S0 (st : ManagerState) (sid reason : String) (n : Nat)
    (h0 : InS0 st sid) : (killSession st sid reason n).1 = st := by
  rw [killSession_not_found st sid reason n h0.2]

/-- A kill on a session whose in-memory entry is gone or holds a
non-running status changes nothing. -/
theorem kill_noop_of_mem (st : ManagerState) (sid reason : String) (n : Nat)
    (u : DStatus) (hu : u ≠ DStatus.running) (hm : memNoneOrStatus st sid u) :
    (killSession st sid reason n).1 = st := by
  cases hm with
  | inl hnone => rw [killSession_not_found st sid reason n hnone]
  | inr hsome =>
    obtain ⟨s, hget, hstat⟩ := hsome
    rw [killSession_guard_false st sid reason n s hget ?_]
    rintro ⟨-, hr⟩
    rw [hstat] at hr
    exact hu hr

/-- A kill on a live running session records killed or timeout. -/
theorem kill_S2 (st : ManagerState) (sid reason : String) (n : Nat)
    (h2 : InS2 st sid) : InS4 ((killSession st sid reason n).1) sid := by
  obtain ⟨hh, s, hget, hrun, hchild⟩ := h2
  obtain ⟨p, hp⟩ := Option.isSome_iff_exists.mp hchild
  have hsid : s.id = sid := getSession_id _ _ _ hget
  subst hsid
  rw [killSession_success st s.id reason n s p hget hp hrun]
  refine ⟨if reason = "timeout" then DStatus.timeout else DStatus.killed, ?_, ?_, ?_⟩
  · by_cases ht : reason = "timeout" <;> simp [killedLike, ht]
  · unfold historyOf
    show statusWritesFor s.id (st.events ++ _) = _
    rw [statusWritesFor_append, show statusWritesFor s.id st.events = _ from hh]
    simp [statusWritesFor, killRecord]
  · exact ⟨_, getSession_set_self st.sessions _, rfl⟩

/-- A kill on a session already in the killed phase changes nothing. -/
theorem kill_S4_noop (st : ManagerState) (sid reason : String) (n : Nat)
    (h4 : InS4 st sid) : (killSession st sid reason n).1 = st := by
  obtain ⟨k, hk, hh, s, hget, hstat⟩ := h4
  have hkr : k ≠ DStatus.running := by
    rcases hk with h | h <;> simp [h]
  exact kill_noop_of_mem st sid reason n k hkr (Or.inr ⟨s, hget, hstat⟩)

/-- The cleanup run preserves every durable history. -/
theorem cleanup_hist (st : ManagerState) (now : Nat) (f : List String) (sid : String) :
    historyOf (cleanup st now f) sid = historyOf st sid := by
  unfold historyOf cleanup
  rw [cleanupLoop_events]

/-- Cleanup preserves the never-spawned phase. -/
theorem cleanup_S0 (st : ManagerState) (now : Nat) (f : List String) (sid : String)
    (h0 : InS0 st sid) : InS0 (cleanup st now f) sid := by
  refine ⟨by rw [cleanup_hist]; exact h0.1, ?_⟩
  unfold cleanup
  exact cleanupLoop_mem_none st.store st _ f sid h0.2

/-- Cleanup preserves the live running phase. -/
theorem cleanup_S2 (st : ManagerState) (now : Nat) (f : List String) (sid : String)
    (h2 : InS2 st sid) : InS2 (cleanup st now f) sid := by
  obtain ⟨hh, s, hget, hrun, hchild⟩ := h2
  refine ⟨by rw [cleanup_hist]; exact hh, s, ?_, hrun, hchild⟩
  unfold cleanup
  refine cleanupLoop_mem_keep st.store st _ f sid s hget ?_
  rw [hrun]
  simp

/-- Cleanup preserves the killed phase. -/
theorem cleanup_S4 (st : ManagerState) (now : Nat) (f : List String) (sid : String)
    (h4 : InS4 st sid) : InS4 (cleanup st now f) sid := by
  obtain ⟨k, hk, hh, s, hget, hstat⟩ := h4
  refine ⟨k, hk, by rw [cleanup_hist]; exact hh, s, ?_, hstat⟩
  unfold cleanup
  refine cleanupLoop_mem_keep st.store st _ f sid s hget ?_
  rw [hstat]
  rcases hk with h | h <;> simp [h]

/-- Cleanup preserves the gone-or-status view of a terminal session. -/
theorem cleanup_memNoneOrStatus (st : ManagerState) (now : Nat) (f : List String)
    (sid : String) (u : DStatus) (hm : memNoneOrStatus st sid u) :
    memNoneOrStatus (cleanup st now f) sid u := by
  cases hm with
  | inl hnone =>
    refine Or.inl ?_
    unfold cleanup
    exact cleanupLoop_mem_none st.store st _ f sid hnone
  | inr hsome =>
    obtain ⟨s, hget, hstat⟩ := hsome
    unfold cleanup
    rcases cleanupLoop_mem_or_none st.store st ((now : Int) - (st.cleanupAfterMs : Int))
        f sid with hsame | hnone
    · refine Or.inr ⟨s, ?_, hstat⟩
      rw [hsame]
      exact hget
    · exact Or.inl hnone

/-- Cleanup preserves the exited phase. -/
theorem cleanup_S3 (st : ManagerState) (now : Nat) (f : List String) (sid : String)
    (h3 : InS3 st sid) : InS3 (cleanup st now f) sid := by
  obtain ⟨u, hu, hh, hm⟩ := h3
  exact ⟨u, hu, by rw [cleanup_hist]; exact hh, cleanup_memNoneOrStatus st now f sid u hm⟩

/-- Cleanup preserves the killed-then-exited phase. -/
theorem cleanup_S5 (st : ManagerState) (now : Nat) (f : List String) (sid : String)
    (h5 : InS5 st sid) : InS5 (cleanup st now f) sid := by
  obtain ⟨k, u, hk, hu, hh, hm⟩ := h5
  exact ⟨k, u, hk, hu, by rw [cleanup_hist]; exact hh,
    cleanup_memNoneOrStatus st now f sid u hm⟩

/-- Spawn count over a leading spawn operation. -/
theorem spawnOpsFor_cons_spawn (sid s2 : String) (task : TaskDescriptor)
    (now pid : Nat) (rest : List MOp) :
    spawnOpsFor sid (MOp.spawnOp s2 task now pid :: rest) =
      spawnOpsFor sid rest + (if s2 = sid then 1 else 0) := by
  by_cases h : s2 = sid
  · simp [spawnOpsFor, List.countP_cons, h]
  · simp [spawnOpsFor, List.countP_cons, h]

/-- Spawn count over a leading exit operation. -/
theorem spawnOpsFor_cons_exit (sid s2 : String) (c : Int) (n : Nat) (rest : List MOp) :
    spawnOpsFor sid (MOp.exitOp s2 c n :: rest) = spawnOpsFor sid rest := by
  simp [spawnOpsFor, List.countP_cons]

/-- Spawn count over a leading kill operation. -/
theorem spawnOpsFor_cons_kill (sid s2 reason : String) (n : Nat) (rest : List MOp) :
    spawnOpsFor sid (MOp.killOp s2 reason n :: rest) = spawnOpsFor sid rest := by
  simp [spawnOpsFor, List.countP_cons]

/-- Spawn count over a leading cleanup operation. -/
theorem spawnOpsFor_cons_cleanup (sid : String) (now : Nat) (f : List String)
    (rest : List MOp) :
    spawnOpsFor sid (MOp.cleanupOp now f :: rest) = spawnOpsFor sid rest := by
  simp [spawnOpsFor, List.countP_cons]

/-- Exit count over a leading exit operation. -/
theorem exitOpsFor_cons_exit (sid s2 : String) (c : Int) (n : Nat) (rest : List MOp) :
    exitOpsFor sid (MOp.exitOp s2 c n :: rest) =
      exitOpsFor sid rest + (if s2 = sid then 1 else 0) := by
  by_cases h : s2 = sid
  · simp [exitOpsFor, List.countP_cons, h]
  · simp [exitOpsFor, List.countP_cons, h]

/-- Exit count over a leading spawn operation. -/
theorem exitOpsFor_cons_spawn (sid s2 : String) (task : TaskDescriptor)
    (now pid : Nat) (rest : List MOp) :
    exitOpsFor sid (MOp.spawnOp s2 task now pid :: rest) = exitOpsFor sid rest := by
  simp [exitOpsFor, List.countP_cons]

/-- Exit count over a leading kill operation. -/
theorem exitOpsFor_cons_kill (sid s2 reason : String) (n : Nat) (rest : List MOp) :
    exitOpsFor sid (MOp.killOp s2 reason n :: rest) = exitOpsFor sid rest := by
  simp [exitOpsFor, List.countP_cons]

/-- Exit count over a leading cleanup operation. -/
theorem exitOpsFor_cons_cleanup (sid : String) (now : Nat) (f : List String)
    (rest : List MOp) :
    exitOpsFor sid (MOp.cleanupOp now f :: rest) = exitOpsFor sid rest := by
  simp [exitOpsFor, List.countP_cons]

/-- Transport of the whole phase disjunction along an equal view. -/
theorem phaseOK_of_view (st st2 : ManagerState) (sid : String)
    (hh : historyOf st2 sid = historyOf st sid)
    (hg : getSession st2.sessions sid = getSession st.sessions sid)
    (hp : PhaseOK st sid) : PhaseOK st2 sid := by
  have hv := phase_pieces_of_view st st2 sid hh hg
  rcases hp with h | h | h | h | h
  · exact Or.inl (hv.1 h)
  · exact Or.inr (Or.inl (hv.2.1 h))
  · exact Or.inr (Or.inr (Or.inl (hv.2.2.1 h)))
  · exact Or.inr (Or.inr (Or.inr (Or.inl (hv.2.2.2.1 h))))
  · exact Or.inr (Or.inr (Or.inr (Or.inr (hv.2.2.2.2 h))))

/-- Main trace invariant: starting from any state, a run whose remaining
operations spawn this id at most once (and only while it is unspawned)
and deliver at most one exit event for it (and only before it has
exited) keeps the id inside the five reachable phases. -/
theorem runOps_phase (ops : List MOp) :
    ∀ (st : ManagerState) (sid : String),
      PhaseOK st sid →
      spawnOpsFor sid ops ≤ 1 →
      exitOpsFor sid ops ≤ 1 →
      (spawnOpsFor sid ops = 0 ∨ InS0 st sid) →
      (exitOpsFor sid ops = 0 ∨ InS0 st sid ∨ InS2 st sid ∨ InS4 st sid) →
      PhaseOK (runOps st ops) sid := by
  induction ops with
  | nil => intro st sid hp _ _ _ _; exact hp
  | cons op rest ih =>
    intro st sid hp hs1 he1 hs0 he0
    show PhaseOK (runOps (applyOp st op) rest) sid
    cases op with
    | spawnOp s2 task now pid =>
      rw [spawnOpsFor_cons_spawn] at hs1 hs0
      rw [exitOpsFor_cons_spawn] at he1 he0
      by_cases hss : s2 = sid
      · rw [hss] at hs1 hs0 ⊢
        rw [if_pos rfl] at hs1 hs0
        have h0 : InS0 st sid := by
          cases hs0 with
          | inl h => omega
          | inr h => exact h
        have hrest : spawnOpsFor sid rest = 0 := by omega
        have hstep := applyOp_spawn_self st sid task now pid h0
        refine ih _ sid ?_ ?_ he1 (Or.inl hrest) ?_
        · cases hstep with
          | inl h => exact Or.inl h
          | inr h => exact Or.inr (Or.inl h)
        · omega
        · cases hstep with
          | inl h => exact Or.inr (Or.inl h)
          | inr h => exact Or.inr (Or.inr (Or.inl h))
      · simp only [if_neg hss, Nat.add_zero] at hs1 hs0
        have hfr := applyOp_other st sid (MOp.spawnOp s2 task now pid) s2 rfl hss
        refine ih _ sid (phaseOK_of_view st _ sid hfr.1 hfr.2 hp) hs1 he1 ?_ ?_
        · cases hs0 with
          | inl h => exact Or.inl h
          | inr h =>
            exact Or.inr ((phase_pieces_of_view st _ sid hfr.1 hfr.2).1 h)
        · cases he0 with
          | inl h => exact Or.inl h
          | inr h =>
            have hv := phase_pieces_of_view st _ sid hfr.1 hfr.2
            rcases h with h | h | h
            · exact Or.inr (Or.inl (hv.1 h))
            · exact Or.inr (Or.inr (Or.inl (hv.2.1 h)))
            · exact Or.inr (Or.inr (Or.inr (hv.2.2.2.1 h)))
    | exitOp s2 c n =>
      rw [exitOpsFor_cons_exit] at he1 he0
      rw [spawnOpsFor_cons_exit] at hs1 hs0
      by_cases hss : s2 = sid
      · rw [hss] at he1 he0 ⊢
        rw [if_pos rfl] at he1 he0
        have hrest : exitOpsFor sid rest = 0 := by omega
        have hset : InS0 st sid ∨ InS2 st sid ∨ InS4 st sid := by
          cases he0 with
          | inl h => omega
          | inr h => exact h
        rcases hset with h0 | h2 | h4
        · have hstep := handleExit_S0 st sid c n h0
          refine ih _ sid (Or.inl hstep) hs1 (by omega) ?_ (Or.inl hrest)
          cases hs0 with
          | inl h => exact Or.inl h
          | inr _ => exact Or.inr hstep
        · have hstep := handleExit_S2 st sid c n h2
          refine ih _ sid (Or.inr (Or.inr (Or.inl hstep))) hs1 (by omega) ?_
            (Or.inl hrest)
          cases hs0 with
          | inl h => exact Or.inl h
          | inr h0 =>
            obtain ⟨s, hgs, -, -⟩ := h2.2
            rw [h0.2] at hgs
            cases hgs
        · have hstep := handleExit_S4 st sid c n h4
          refine ih _ sid (Or.inr (Or.inr (Or.inr (Or.inr hstep)))) hs1 (by omega) ?_
            (Or.inl hrest)
          cases hs0 with
          | inl h => exact Or.inl h
          | inr h0 =>
            obtain ⟨k, -, -, s, hgs, -⟩ := h4
            rw [h0.2] at hgs
            cases hgs
      · simp only [if_neg hss, Nat.add_zero] at he1 he0
        have hfr := applyOp_other st sid (MOp.exitOp s2 c n) s2 rfl hss
        refine ih _ sid (phaseOK_of_view st _ sid hfr.1 hfr.2 hp) hs1 he1 ?_ ?_
        · cases hs0 with
          | inl h => exact Or.inl h
          | inr h =>
            exact Or.inr ((phase_pieces_of_view st _ sid hfr.1 hfr.2).1 h)
        · cases he0 with
          | inl h => exact Or.inl h
          | inr h =>
            have hv := phase_pieces_of_view st _ sid hfr.1 hfr.2
            rcases h with h | h | h
            · exact Or.inr (Or.inl (hv.1 h))
            · exact Or.inr (Or.inr (Or.inl (hv.2.1 h)))
            · exact Or.inr (Or.inr (Or.inr (hv.2.2.2.1 h)))
    | killOp s2 reason n =>
      rw [spawnOpsFor_cons_kill] at hs1 hs0
      rw [exitOpsFor_cons_kill] at he1 he0
      by_cases hss : s2 = sid
      · rw [hss]
        rcases hp with h0 | h2 | h3 | h4 | h5
        · have heq : applyOp st (MOp.killOp sid reason n) = st :=
            kill_S0 st sid reason n h0
          rw [heq]
          exact ih st sid (Or.inl h0) hs1 he1 hs0 he0
        · have hstep := kill_S2 st sid reason n h2
          have hstep2 : InS4 (applyOp st (MOp.killOp sid reason n)) sid := hstep
          refine ih _ sid (Or.inr (Or.inr (Or.inr (Or.inl hstep2)))) hs1 he1 ?_ ?_
          · cases hs0 with
            | inl h => exact Or.inl h
            | inr h0 =>
              obtain ⟨s, hgs, -, -⟩ := h2.2
              rw [h0.2] at hgs
              cases hgs
          · cases he0 with
            | inl h => exact Or.inl h
            | inr _ => exact Or.inr (Or.inr (Or.inr hstep2))
        · obtain ⟨u, hu, hh, hm⟩ := h3
          have hur : u ≠ DStatus.running := by
            rcases hu with h | h <;> simp [h]
          have heq : applyOp st (MOp.killOp sid reason n) = st :=
            kill_noop_of_mem st sid reason n u hur hm
          rw [heq]
          exact ih st sid (Or.inr (Or.inr (Or.inl ⟨u, hu, hh, hm⟩))) hs1 he1 hs0 he0
        · have heq : applyOp st (MOp.killOp sid reason n) = st :=
            kill_S4_noop st sid reason n h4
          rw [heq]
          exact ih st sid (Or.inr (Or.inr (Or.inr (Or.inl h4)))) hs1 he1 hs0 he0
        · obtain ⟨k, u, hk, hu, hh, hm⟩ := h5
          have hur : u ≠ DStatus.running := by
            rcases hu with h | h <;> simp [h]
          have heq : applyOp st (MOp.killOp sid reason n) = st :=
            kill_noop_of_mem st sid reason n u hur hm
          rw [heq]
          exact ih st sid (Or.inr (Or.inr (Or.inr (Or.inr ⟨k, u, hk, hu, hh, hm⟩))))
            hs1 he1 hs0 he0
      · have hfr := applyOp_other st sid (MOp.killOp s2 reason n) s2 rfl hss
        refine ih _ sid (phaseOK_of_view st _ sid hfr.1 hfr.2 hp) hs1 he1 ?_ ?_
        · cases hs0 with
          | inl h => exact Or.inl h
          | inr h =>
            exact Or.inr ((phase_pieces_of_view st _ sid hfr.1 hfr.2).1 h)
        · cases he0 with
          | inl h => exact Or.inl h
          | inr h =>
            have hv := phase_pieces_of_view st _ sid hfr.1 hfr.2
            rcases h with h | h | h
            · exact Or.inr (Or.inl (hv.1 h))
            · exact Or.inr (Or.inr (Or.inl (hv.2.1 h)))
            · exact Or.inr (Or.inr (Or.inr (hv.2.2.2.1 h)))
    | cleanupOp now f =>
      rw [spawnOpsFor_cons_cleanup] at hs1 hs0
      rw [exitOpsFor_cons_cleanup] at he1 he0
      have hclean : applyOp st (MOp.cleanupOp now f) = cleanup st now f := rfl
      rw [hclean]
      have hp2 : PhaseOK (cleanup st now f) sid := by
        rcases hp with h | h | h | h | h
        · exact Or.inl (cleanup_S0 st now f sid h)
        · exact Or.inr (Or.inl (cleanup_S2 st now f sid h))
        · exact Or.inr (Or.inr (Or.inl (cleanup_S3 st now f sid h)))
        · exact Or.inr (Or.inr (Or.inr (Or.inl (cleanup_S4 st now f sid h))))
        · exact Or.inr (Or.inr (Or.inr (Or.inr (cleanup_S5 st now f sid h))))
      refine ih _ sid hp2 hs1 he1 ?_ ?_
      · cases hs0 with
        | inl h => exact Or.inl h
        | inr h => exact Or.inr (cleanup_S0 st now f sid h)
      · cases he0 with
        | inl h => exact Or.inl h
        | inr h =>
          rcases h with h | h | h
          · exact Or.inr (Or.inl (cleanup_S0 st now f sid h))
          · exact Or.inr (Or.inr (Or.inl (cleanup_S2 st now f sid h)))
          · exact Or.inr (Or.inr (Or.inr (cleanup_S4 st now f sid h)))

/-- Each reachable phase yields one of the valid history shapes. -/
theorem validHist_of_phase (st : ManagerState) (sid : String)
    (hp : PhaseOK st sid) : ValidHist (historyOf st sid) := by
  rcases hp with h | h | h | h | h
  · exact Or.inl h.1
  · exact Or.inr (Or.inl h.1)
  · obtain ⟨u, hu, hh, -⟩ := h
    refine Or.inr (Or.inr (Or.inl ⟨u, ?_, hh⟩))
    rcases hu with h2 | h2 <;> simp [h2, DStatus.isTerminal]
  · obtain ⟨k, hk, hh, -⟩ := h
    refine Or.inr (Or.inr (Or.inl ⟨k, ?_, hh⟩))
    rcases hk with h2 | h2 <;> simp [h2, DStatus.isTerminal]
  · obtain ⟨k, u, hk, hu, hh, -⟩ := h
    exact Or.inr (Or.inr (Or.inr ⟨k, u, hk, hu, hh⟩))

/-- C2.  Corrected version.  The durable status history of a session is
spawning, then running, then at most two terminal records: one of
completed, failed, killed or timeout, where a killed or timeout record
can further be overwritten by the completed or failed record of the exit
event of the signaled process.  The status pending of the original claim
is never recorded: the initial durable record, persisted before the
worker process is launched (the write precedes the launch on the event
trace), has status spawning. -/
theorem C2_status_history :
    (∀ (cap win : Nat) (ops : List MOp) (sid : String),
       spawnOpsFor sid ops ≤ 1 → exitOpsFor sid ops ≤ 1 →
       ValidHist (historyOf (runOps (freshManager cap win) ops) sid)) ∧
    (∀ (st : ManagerState) (sid : String) (task : TaskDescriptor) (now pid : Nat)
       (p2 : ManagerState × String),
       spawnSession st sid task now pid = Except.ok p2 →
       p2.1.events = st.events ++
         [MEvent.wroteStatus (spawnRecord sid task now), MEvent.launched sid pid,
          MEvent.wroteStatus
            ({ spawnRecord sid task now with
                status := DStatus.running, pid := some pid })] ∧
       (spawnRecord sid task now).status = DStatus.spawning) := by
  constructor
  · intro cap win ops sid hsp hex
    refine validHist_of_phase _ _ ?_
    refine runOps_phase ops (freshManager cap win) sid (Or.inl ⟨rfl, rfl⟩) hsp hex
      (Or.inr ⟨rfl, rfl⟩) (Or.inr (Or.inl ⟨rfl, rfl⟩))
  · intro st sid task now pid p2 hok
    have hh := spawnSession_ok st sid task now pid p2 hok
    rw [hh.2]
    exact ⟨spawnBody_events st sid task now pid, rfl⟩

/-- C2, witness.  The concrete spawn, kill, exit run has a valid history,
and the single-spawn run exhibits the spawning write before the launch
event. -/
theorem C2_status_history_witness :
    ValidHist (historyOf stKillThenExit sidA) ∧
    stSpawned.events =
      (freshManager 3 0).events ++
        [MEvent.wroteStatus (spawnRecord sidA task0 0), MEvent.launched sidA 7,
         MEvent.wroteStatus
           ({ spawnRecord sidA task0 0 with
               status := DStatus.running, pid := some 7 })] := by
  constructor
  · exact C2_status_history.1 3 0
      [MOp.spawnOp sidA task0 0 7, MOp.killOp sidA reasonUser 5,
       MOp.exitOp sidA 143 6] sidA (by decide) (by decide)
  · have h := C2_status_history.2 (freshManager 3 0) sidA task0 0 7
      (spawnBody (freshManager 3 0) sidA task0 0 7, sidA) rfl
    exact h.1

end BmadDelegation
